import Mathlib

/-!
Verification development for the JSON Structure validator samples
(`json_structure_instance_validator.py` and `json_structure_schema_validator.py`).

The Python code works on values produced by `json.load`: `None`, `bool`, `int`,
`float`, `str`, `list`, `dict` (with insertion-ordered keys).  We embed this
value universe as the inductive `Json` below; objects are association lists in
insertion order, mirroring Python 3.7+ dict ordering.

Modeling conventions, used consistently throughout:
* The validator's mutable `self.errors` list is threaded explicitly as a
  `List String`.
* The recursive `validate_instance` is embedded with an explicit fuel
  parameter; `none` means the call does not return normally — either the
  recursion budget is exhausted (Python: unbounded recursion ending in
  `RecursionError`) or an uncaught exception would be raised (for example
  `len()` of a number, iterating a non-iterable, `re.compile` of an invalid
  pattern at a site with no `try`).  A handful of exotic corners where Python
  would iterate a string or compare lists are also mapped to `none`; no
  theorem below exercises them.
* In-place mutation of Python dicts is modeled by value threading.  The one
  aliasing effect that is tracked globally is the top-level call
  `validate_instance(instance)` (schema defaulting to `self.root_schema`),
  where mutations of `schema` are mutations of the root document; the wrapper
  `validateTop` applies them to the returned root.  Mutations of sub-schema
  nodes that alias the root document are modeled on the local value only.
* Python library calls (`re`, file fetching) are taken as explicit function
  parameters, mirroring that they are external collaborators.
-/

/-- The Python/JSON value universe as produced by `json.load`.  `bool` is kept
separate from `int` even though Python's `bool` is an `int` subclass; the
`isinstance` helpers below reproduce Python's behaviour (`pyIsInt` accepts
booleans, etc.).  `float` is modeled by a rational (exact arithmetic). -/
inductive Json where
  | null
  | bool (b : Bool)
  | int (n : Int)
  | float (q : Rat)
  | str (s : String)
  | arr (xs : List Json)
  | obj (kvs : List (String × Json))
  deriving Repr

mutual

/-- Structural equality on `Json`, used in theorem statements and for the few
`==` tests of the embedding that compare against literal values
(Python `==` with its numeric coercions is the separate `pyEq` below). -/
def Json.beq : Json → Json → Bool
  | .null, .null => true
  | .bool a, .bool b => a == b
  | .int a, .int b => a == b
  | .float a, .float b => a == b
  | .str a, .str b => a == b
  | .arr a, .arr b => Json.beqList a b
  | .obj a, .obj b => Json.beqObj a b
  | _, _ => false

/-- Structural equality on `Json` lists. -/
def Json.beqList : List Json → List Json → Bool
  | [], [] => true
  | x :: xs, y :: ys => Json.beq x y && Json.beqList xs ys
  | _, _ => false

/-- Structural equality on `Json` association lists. -/
def Json.beqObj : List (String × Json) → List (String × Json) → Bool
  | [], [] => true
  | (k, v) :: xs, (l, w) :: ys => k == l && Json.beq v w && Json.beqObj xs ys
  | _, _ => false

end

instance : BEq Json := ⟨Json.beq⟩

/-- `obj.get(k)` on an association list: first binding wins (Python dicts have
unique keys; the operations below preserve that). -/
def objGet (j : Json) (k : String) : Option Json :=
  match j with
  | .obj kvs => kvs.lookup k
  | _ => none

/-- Keys of an object in insertion order. -/
def objKeys : Json → List String
  | .obj kvs => kvs.map Prod.fst
  | _ => []

/-- `k in obj` for an association list. -/
def kvsHas (kvs : List (String × Json)) (k : String) : Bool :=
  kvs.any (fun p => p.1 == k)

/-- `obj[k] = v` on an association list with Python dict semantics: an existing
key keeps its position and is overwritten, a new key is appended. -/
def kvsSet (kvs : List (String × Json)) (k : String) (v : Json) : List (String × Json) :=
  match kvs with
  | [] => [(k, v)]
  | (k', v') :: rest =>
    if k' == k then (k', v) :: rest else (k', v') :: kvsSet rest k v

/-- `del obj[k]` / `obj.pop(k)` on an association list. -/
def kvsDel (kvs : List (String × Json)) (k : String) : List (String × Json) :=
  match kvs with
  | [] => []
  | (k', v') :: rest =>
    if k' == k then rest else (k', v') :: kvsDel rest k

/-- `a.update(b)` on association lists with Python dict semantics: existing
keys keep their position and take `b`'s value, new keys are appended in `b`'s
order. -/
def kvsUpdate (kvs : List (String × Json)) (upd : List (String × Json)) : List (String × Json) :=
  upd.foldl (fun acc p => kvsSet acc p.1 p.2) kvs

/-- `obj.setdefault(k, v)`. -/
def kvsSetdefault (kvs : List (String × Json)) (k : String) (v : Json) : List (String × Json) :=
  if kvsHas kvs k then kvs else kvs ++ [(k, v)]

/-- `obj.pop(k)` / `del obj[k]` at the `Json` level (no-op on non-objects). -/
def objDel (j : Json) (k : String) : Json :=
  match j with
  | .obj kvs => .obj (kvsDel kvs k)
  | _ => j

/-- Python truthiness of a JSON value (`if not x`). -/
def pyTruthy : Json → Bool
  | .null => false
  | .bool b => b
  | .int n => n != 0
  | .float q => q != 0
  | .str s => s != ""
  | .arr xs => !xs.isEmpty
  | .obj kvs => !kvs.isEmpty

/-- Numeric value of a Python number (`True` counts as `1`), for mixed
comparisons; `none` for non-numbers. -/
def pyNum : Json → Option Rat
  | .bool b => some (if b then 1 else 0)
  | .int n => some (n : Rat)
  | .float q => some q
  | _ => none

/-- `pre` is a prefix of the character list (character-level helper; the
`String` library functions are avoided because several of them do not reduce
definitionally). -/
def listIsPrefix : List Char → List Char → Bool
  | [], _ => true
  | _ :: _, [] => false
  | a :: as, b :: bs => a == b && listIsPrefix as bs

/-- `s.startswith(pre)`. -/
def strStarts (s pre : String) : Bool :=
  listIsPrefix pre.toList s.toList

/-- Accumulator loop of `splitChar`. -/
def splitCharAux (sep : Char) : List Char → List Char → List String
  | acc, [] => [String.mk acc.reverse]
  | acc, c :: rest =>
    if c == sep then String.mk acc.reverse :: splitCharAux sep [] rest
    else splitCharAux sep (c :: acc) rest

/-- Python `s.split(sep)` for a one-character separator: `"" → [""]`,
`"/a" → ["", "a"]`. -/
def splitChar (sep : Char) (cs : List Char) : List String :=
  splitCharAux sep [] cs

/-- `needle` occurs as a contiguous sublist of `hay`. -/
def containsL (needle : List Char) : List Char → Bool
  | [] => listIsPrefix needle []
  | c :: cs => listIsPrefix needle (c :: cs) || containsL needle cs

/-- Python `s.replace(pat, repl)` for a non-empty `pat`: leftmost
non-overlapping occurrences.  The budget (`length + 1` at the wrapper call
sites) only serves structural recursion; at least one character is consumed
per step. -/
def replaceL (pat repl : List Char) : Nat → List Char → List Char
  | _, [] => []
  | 0, cs => cs
  | f + 1, c :: cs =>
    if listIsPrefix pat (c :: cs) then
      repl ++ replaceL pat repl f (List.drop (pat.length - 1) cs)
    else c :: replaceL pat repl f cs

/-- ASCII whitespace (Python `strip()` also strips some unicode whitespace;
not exercised). -/
def isSpaceChar (c : Char) : Bool :=
  c == ' ' || c == '\t' || c == '\n' || c == '\r'

/-- Python `s.strip()` on a character list. -/
def trimL (cs : List Char) : List Char :=
  ((cs.dropWhile isSpaceChar).reverse.dropWhile isSpaceChar).reverse


mutual

/-- Python `==` on JSON values: numeric types compare by value (`True == 1`,
`1 == 1.0`), strings and lists elementwise, dicts as unordered key/value maps.
Since parsed dicts have unique keys, dict equality is: equal size and every
binding of the left dict matched in the right one. -/
def pyEq : Json → Json → Bool
  | .null, .null => true
  | .str a, .str b => a == b
  | .arr a, .arr b => pyEqList a b
  | .obj a, .obj b => a.length == b.length && pyEqObj a b
  | a, b =>
    match pyNum a, pyNum b with
    | some x, some y => x == y
    | _, _ => false

/-- Python `==` on lists. -/
def pyEqList : List Json → List Json → Bool
  | [], [] => true
  | x :: xs, y :: ys => pyEq x y && pyEqList xs ys
  | _, _ => false

/-- Every binding of `a` is matched in `b` (one inclusion of Python dict
equality; with unique keys and equal sizes this is full equality). -/
def pyEqObj : List (String × Json) → List (String × Json) → Bool
  | [], _ => true
  | (k, v) :: xs, b =>
    (match b.lookup k with
     | some w => pyEq v w
     | none => false) && pyEqObj xs b

end

/-- Python `x in y`.  `y` a list: elementwise `==`; `y` a dict: key test
(JSON object keys are strings, a non-string `x` is simply not found); `y` a
string: substring test (`TypeError` unless `x` is a string).  `none` models
the `TypeError` of `in` on numbers and `None`. -/
def pyIn (x y : Json) : Option Bool :=
  match y with
  | .arr ys => some (ys.any (fun e => pyEq x e))
  | .obj kvs =>
    match x with
    | .str s => some (kvsHas kvs s)
    | _ => some false
  | .str hay =>
    match x with
    | .str needle => some (needle == "" || containsL needle.toList hay.toList)
    | _ => none
  | _ => none

/-- Python `type(x).__name__` for parsed JSON values. -/
def pyTypeName : Json → String
  | .null => "NoneType"
  | .bool _ => "bool"
  | .int _ => "int"
  | .float _ => "float"
  | .str _ => "str"
  | .arr _ => "list"
  | .obj _ => "dict"

/-- Python `len(x)`; `none` is the `TypeError` on numbers/`None`. -/
def pyLen : Json → Option Nat
  | .str s => some s.length
  | .arr xs => some xs.length
  | .obj kvs => some kvs.length
  | _ => none

/-- Python `x < y` for the operand kinds the validator meets: numbers compare
by value, strings lexicographically; other mixes raise `TypeError` (`none`).
(Python also orders lists; that corner is not exercised and maps to `none`.) -/
def pyLt (x y : Json) : Option Bool :=
  match pyNum x, pyNum y with
  | some a, some b => some (a < b)
  | _, _ =>
    match x, y with
    | .str a, .str b => some (a < b)
    | _, _ => none

/-- Python `x <= y`, same conventions as `pyLt`. -/
def pyLe (x y : Json) : Option Bool :=
  match pyNum x, pyNum y with
  | some a, some b => some (a ≤ b)
  | _, _ =>
    match x, y with
    | .str a, .str b => some (a ≤ b)
    | _, _ => none


/-- Python `x % m != 0` for numbers (used by `multipleOf`): for exact values
`x % m = 0` iff `x / m` is an integer.  `none` models `TypeError` on
non-numbers and `ZeroDivisionError` on `m = 0`. -/
def pyModNonzero (x m : Json) : Option Bool :=
  match pyNum x, pyNum m with
  | some a, some b => if b = 0 then none else some ((a / b).den ≠ 1)
  | _, _ => none

mutual

/-- Python `repr()` of a parsed JSON value, as used inside f-string formatting
of containers.  Exact for the values appearing in theorems below; for strings
it assumes no quotes or escape-needing characters, and for floats it uses the
rational printer (no theorem formats a float). -/
def pyRepr : Json → String
  | .null => "None"
  | .bool b => if b then "True" else "False"
  | .int n => toString n
  | .float q => toString q
  | .str s => "\x27" ++ s ++ "\x27"
  | .arr xs => "[" ++ String.intercalate ", " (pyReprList xs) ++ "]"
  | .obj kvs => "\x7b" ++ String.intercalate ", " (pyReprObj kvs) ++ "\x7d"

/-- `repr` of the elements of a list. -/
def pyReprList : List Json → List String
  | [] => []
  | x :: xs => pyRepr x :: pyReprList xs

/-- `repr` of the bindings of a dict. -/
def pyReprObj : List (String × Json) → List String
  | [] => []
  | (k, v) :: kvs => ("\x27" ++ k ++ "\x27: " ++ pyRepr v) :: pyReprObj kvs

end

/-- Python `str()` of a parsed JSON value (f-string interpolation): bare for
strings, `repr`-based for containers. -/
def pyStr : Json → String
  | .str s => s
  | v => pyRepr v

/-- Python `str()` of a Python list of strings (f-string interpolation of an
error-list variable). -/
def pyStrList (xs : List String) : String :=
  pyStr (Json.arr (xs.map Json.str))

/-- Python `needle in hay` for strings (substring test). -/
def strContains (hay needle : String) : Bool :=
  needle == "" || containsL needle.toList hay.toList

/-- A scheme character of `ABSOLUTE_URI_REGEX`: `[a-zA-Z0-9+\-.]`. -/
def isSchemeChar (c : Char) : Bool :=
  c.isAlphanum || c == '+' || c == '-' || c == '.'

/-- Tail of `ABSOLUTE_URI_REGEX.search`: zero or more scheme characters
followed by `://`. -/
def absUriTail : List Char → Bool
  | ':' :: '/' :: '/' :: _ => true
  | c :: rest => isSchemeChar c && absUriTail rest
  | [] => false

/-- `ABSOLUTE_URI_REGEX.search(uri)`: `^[a-zA-Z][a-zA-Z0-9+\-.]*://` anchored
at the start. -/
def isAbsUri (s : String) : Bool :=
  match s.toList with
  | [] => false
  | c :: rest => c.isAlpha && absUriTail rest

/-- Tail of `urlparse(s).scheme` being non-empty: scheme characters up to a
`:`. -/
def uriSchemeTail : List Char → Bool
  | ':' :: _ => true
  | c :: rest => isSchemeChar c && uriSchemeTail rest
  | [] => false

/-- `urlparse(s).scheme` is non-empty: a letter, then scheme characters, then
`:`. -/
def hasUriScheme (s : String) : Bool :=
  match s.toList with
  | [] => false
  | c :: rest => c.isAlpha && uriSchemeTail rest

/-- All characters are ASCII digits and the list is non-empty. -/
def allDigits (cs : List Char) : Bool :=
  !cs.isEmpty && cs.all Char.isDigit

/-- Digits to a natural number (most significant first); caller checks
`allDigits`. -/
def digitsToNat (cs : List Char) : Nat :=
  cs.foldl (fun acc c => acc * 10 + (c.toNat - '0'.toNat)) 0

/-- Python `int(s)` on a string: optional surrounding whitespace, optional
sign, decimal digits.  (Python also accepts `_` digit separators; that corner
is not modeled and not exercised.) -/
def pyIntParse (s : String) : Option Int :=
  match trimL s.toList with
  | '+' :: ds => if allDigits ds then some (digitsToNat ds : Int) else none
  | '-' :: ds => if allDigits ds then some (-(digitsToNat ds : Int)) else none
  | ds => if allDigits ds then some (digitsToNat ds : Int) else none

/-- Mantissa/exponent part of Python `float(s)`: `digits[.digits][e[±]digits]`,
with at least one digit overall on the mantissa.  Returns the parsed value. -/
def pyFloatParseBody (cs : List Char) : Option Rat :=
  let intPart := cs.takeWhile Char.isDigit
  let rest1 := cs.drop intPart.length
  let frac2 :=
    match rest1 with
    | '.' :: r => (r.takeWhile Char.isDigit, r.drop (r.takeWhile Char.isDigit).length)
    | _ => ([], rest1)
  let fracPart := frac2.1
  let rest2 := frac2.2
  if intPart.isEmpty && fracPart.isEmpty then none
  else
    let mant : Rat := (digitsToNat intPart : Rat) +
      (digitsToNat fracPart : Rat) / ((10 : Rat) ^ fracPart.length)
    match rest2 with
    | [] => some mant
    | 'e' :: es | 'E' :: es =>
      match es with
      | '+' :: ds => if allDigits ds then some (mant * (10 : Rat) ^ (digitsToNat ds)) else none
      | '-' :: ds => if allDigits ds then some (mant / (10 : Rat) ^ (digitsToNat ds)) else none
      | ds => if allDigits ds then some (mant * (10 : Rat) ^ (digitsToNat ds)) else none
    | _ => none

/-- Python `float(s)`: optional surrounding whitespace and sign, then a
decimal literal.  (`inf`/`nan` forms are not modeled and not exercised.) -/
def pyFloatParse (s : String) : Option Rat :=
  match trimL s.toList with
  | '+' :: cs => pyFloatParseBody cs
  | '-' :: cs => (pyFloatParseBody cs).map (fun q => -q)
  | cs => pyFloatParseBody cs

/-- `uuid.UUID(s)` succeeds: after removing `urn:` and `uuid:` occurrences,
stripping surrounding braces and removing `-`, exactly 32 hex digits remain
(mirrors CPython's constructor). -/
def pyUuidOk (s : String) : Bool :=
  let t1 := replaceL "urn:".toList [] (s.length + 1) s.toList
  let t := replaceL "uuid:".toList [] (t1.length + 1) t1
  let cs := ((t.dropWhile (fun c => c == '\x7b' || c == '\x7d')).reverse.dropWhile
    (fun c => c == '\x7b' || c == '\x7d')).reverse
  let hexs := cs.filter (fun c => c != '-')
  hexs.length == 32 && hexs.all (fun c => c.isDigit || ('a' ≤ c && c ≤ 'f') || ('A' ≤ c && c ≤ 'F'))

/-- `_DATE_REGEX`: `^\d{4}-\d{2}-\d{2}$`. -/
def isDateStr (s : String) : Bool :=
  match s.toList with
  | [a, b, c, d, '-', e, f, '-', g, h] =>
    allDigits [a, b, c, d] && allDigits [e, f] && allDigits [g, h]
  | _ => false

/-- Optional fractional part then end, for `_TIME_REGEX`: `(?:\.\d+)?$`. -/
def timeTail : List Char → Bool
  | [] => true
  | '.' :: ds => allDigits ds
  | _ => false

/-- `_TIME_REGEX`: `^\d{2}:\d{2}:\d{2}(?:\.\d+)?$`. -/
def isTimeStr (s : String) : Bool :=
  match s.toList with
  | h1 :: h2 :: ':' :: m1 :: m2 :: ':' :: s1 :: s2 :: rest =>
    allDigits [h1, h2] && allDigits [m1, m2] && allDigits [s1, s2] && timeTail rest
  | _ => false

/-- Timezone part of `_DATETIME_REGEX`: `Z|[+\-]\d{2}:\d{2}`, at end. -/
def dtZone : List Char → Bool
  | ['Z'] => true
  | ['+', a, b, ':', c, d] => allDigits [a, b] && allDigits [c, d]
  | ['-', a, b, ':', c, d] => allDigits [a, b] && allDigits [c, d]
  | _ => false

/-- Fraction-then-zone of `_DATETIME_REGEX`: `(?:\.\d+)?` then the zone. -/
def dtFracZone : List Char → Bool
  | '.' :: rest =>
    let ds := rest.takeWhile Char.isDigit
    !ds.isEmpty && dtZone (rest.drop ds.length)
  | rest => dtZone rest

/-- `_DATETIME_REGEX`:
`^\d{4}-\d{2}-\d{2}T\d{2}:\d{2}:\d{2}(?:\.\d+)?(?:Z|[+\-]\d{2}:\d{2})$`. -/
def isDatetimeStr (s : String) : Bool :=
  match s.toList with
  | y1 :: y2 :: y3 :: y4 :: '-' :: mo1 :: mo2 :: '-' :: d1 :: d2 :: 'T' ::
    h1 :: h2 :: ':' :: mi1 :: mi2 :: ':' :: s1 :: s2 :: rest =>
    allDigits [y1, y2, y3, y4] && allDigits [mo1, mo2] && allDigits [d1, d2] &&
    allDigits [h1, h2] && allDigits [mi1, mi2] && allDigits [s1, s2] && dtFracZone rest
  | _ => false

/-- `_JSONPOINTER_REGEX`: `^#(\/[^\/]+)*$` — a `#` followed by zero or more
`/segment` groups with non-empty slash-free segments. -/
def isJsonPointerStr (s : String) : Bool :=
  if strStarts s "#" then
    match splitChar '/' (s.toList.drop 1) with
    | [""] => true
    | "" :: segs => segs.all (fun t => t ≠ "")
    | _ => false
  else false

/-- Insert into a list of (key, rendered) pairs keeping keys sorted
(Python `sorted` is by code points, as is `String` order here). -/
def insertPairSorted (p : String × String) : List (String × String) → List (String × String)
  | [] => [p]
  | q :: rest => if p.1 < q.1 then p :: q :: rest else q :: insertPairSorted p rest

/-- Sort (key, rendered) pairs by key. -/
def sortPairsByKey (l : List (String × String)) : List (String × String) :=
  l.foldr insertPairSorted []

mutual

/-- `json.dumps(x, sort_keys=True)`, the canonical serialization used for
`set`/`uniqueItems` duplicate detection.  What matters below is that it is
deterministic and agrees with Python on the concrete values exercised; strings
are rendered without escape processing (exact for escape-free strings) and
floats via the rational printer (no theorem serializes a float). -/
def dumpsCanon : Json → String
  | .null => "null"
  | .bool b => if b then "true" else "false"
  | .int n => toString n
  | .float q => toString q
  | .str s => "\"" ++ s ++ "\""
  | .arr xs => "[" ++ String.intercalate ", " (dumpsList xs) ++ "]"
  | .obj kvs =>
    "\x7b" ++ String.intercalate ", "
      ((sortPairsByKey (dumpsEntries kvs)).map (fun p => "\"" ++ p.1 ++ "\": " ++ p.2)) ++ "\x7d"

/-- Serialize list elements in order. -/
def dumpsList : List Json → List String
  | [] => []
  | x :: xs => dumpsCanon x :: dumpsList xs

/-- Serialize dict entries in insertion order (sorted afterwards). -/
def dumpsEntries : List (String × Json) → List (String × String)
  | [] => []
  | (k, v) :: kvs => (k, dumpsCanon v) :: dumpsEntries kvs

end

/-- A list of serializations has a duplicate
(`len(serialized) != len(set(serialized))`). -/
def hasDuplicate (l : List String) : Bool :=
  l.length != l.eraseDups.length

/-- Unescape a JSON-pointer segment: `part.replace("~1", "/").replace("~0", "~")`. -/
def unescapeSeg (p : String) : String :=
  let t := replaceL ['~', '1'] ['/'] (p.length + 1) p.toList
  String.mk (replaceL ['~', '0'] ['~'] (t.length + 1) t)

/-- The traversal loop of `JSONStructureInstanceValidator._resolve_ref`: walk
the parts, skipping empty raw parts, unescaping, descending only into dicts
by key. -/
def resolveParts (target : Json) : List String → Option Json
  | [] => some target
  | p :: rest =>
    if p = "" then resolveParts target rest
    else
      match target with
      | .obj kvs =>
        match kvs.lookup (unescapeSeg p) with
        | some v => resolveParts v rest
        | none => none
      | _ => none

/-- `JSONStructureInstanceValidator._resolve_ref(ref)`: `None` unless `ref`
starts with `#`; strips all leading `#` characters (`lstrip("#")`), splits on
`/` and traverses the root document. -/
def resolveRef (root : Json) (ref : String) : Option Json :=
  if strStarts ref "#" then
    resolveParts root (splitChar '/' (ref.toList.dropWhile (fun c => c == '#')))
  else none

/-- The extended meta-schema URI tested by `validate_instance` (exact string
equality in the Python code). -/
def extendedMetaUri : String := "https://json-structure.github.io/meta/extended/v0/#"

/-- The validation meta-schema URI tested by `validate_instance`. -/
def validationMetaUri : String := "https://json-structure.github.io/meta/validation/v0/#"

/-- The core meta-schema URI tested by `validate_instance`. -/
def coreMetaUri : String := "https://json-structure.github.io/meta/core/v0/#"

/-- `all_addins` of `validate_instance` (in source order). -/
def allAddins : List String :=
  ["JSONStructureConditionalComposition", "JSONStructureValidation",
   "JSONStructureUnits", "JSONStructureAlternateNames"]

/-- The reserved add-in names skipped by `_apply_uses` (in source order). -/
def reservedAddins : List String :=
  ["JSONStructureValidation", "JSONStructureConditionalComposition",
   "JSONStructureAlternateNames", "JSONStructureUnits"]

/-- The type of the recursive validator callback threaded through the helper
loops (`self.validate_instance` with the errors buffer made explicit):
errors, instance, schema, path to new errors. -/
abbrev ViFn := List String → Json → Json → String → Option (List String)

/-- The conflict diagnostic of `_apply_uses`. -/
def addinConflictMsg (prop : String) (use : Json) : String :=
  "Add-in property \x27" ++ prop ++ "\x27 from add-in \x27" ++ pyStr use ++
    "\x27 conflicts with existing property"

/-- The merge step of `_apply_uses` for one resolved add-in value: if it is a
dict, diagnose every property already present, then
`merged["properties"].update(addin_props)` (the add-in value overwrites).
The threaded `props` is the current value of `merged["properties"]`; a
non-dict value at an actual merge raises in Python (`none`). -/
def mergeAddinProps (use : Json) (st : List String × Json) (resolved : Json) :
    Option (List String × Json) :=
  match resolved with
  | .obj rkvs =>
    match (rkvs.lookup "properties").getD (Json.obj []) with
    | .obj aprops =>
      match st.2 with
      | .obj mprops =>
        let errs := st.1 ++ aprops.filterMap
          (fun p => if kvsHas mprops p.1 then some (addinConflictMsg p.1 use) else none)
        some (errs, Json.obj (kvsUpdate mprops aprops))
      | _ => none
    | _ => none
  | _ => some st

/-- Process one non-reserved `$uses` entry of `_apply_uses`: look it up in
`$offers` and merge the offered schema(s). -/
def applyOneUse (root : Json) (offers : List (String × Json)) (st : List String × Json)
    (use : Json) : Option (List String × Json) :=
  match use with
  | .str u =>
    match offers.lookup u with
    | none => some (st.1 ++ ["Add-in \x27" ++ u ++ "\x27 not offered in $offers"], st.2)
    | some addin =>
      match addin with
      | .arr refs =>
        refs.foldlM
          (fun st' r =>
            match r with
            | .str s =>
              match resolveRef root s with
              | some resolved => mergeAddinProps use st' resolved
              | none => some st'
            | other => mergeAddinProps use st' other)
          st
      | .obj akvs =>
        match akvs.lookup "$ref" with
        | some (.str s) =>
          match resolveRef root s with
          | some resolved => mergeAddinProps use st resolved
          | none => some st
        | some _ => none
        | none => mergeAddinProps use st (.obj akvs)
      | _ => some (st.1 ++ ["Invalid add-in definition for \x27" ++ pyStr use ++ "\x27"], st.2)
  | _ =>
    -- a non-string entry is never a key of `$offers`
    some (st.1 ++ ["Add-in \x27" ++ pyStr use ++ "\x27 not offered in $offers"], st.2)

/-- `JSONStructureInstanceValidator._apply_uses(schema, instance)`: apply
add-in types named by the instance's `$uses` to a copy of the schema.  A
non-dict `$offers` value and a non-dict schema are not modeled (`none`, both
raise in Python before doing observable work). -/
def applyUses (root : Json) (errors : List String) (schema inst : Json) :
    Option (List String × Json) :=
  match objGet inst "$uses" with
  | none => some (errors, schema)
  | some usesVal =>
    if !pyTruthy usesVal then some (errors, schema)
    else
      let uses := match usesVal with | .arr us => us | v => [v]
      match schema with
      | .obj skvs => do
        let offers ←
          match (objGet root "$offers").getD (Json.obj []) with
          | .obj okvs => some okvs
          | _ => none
        let skvs' := kvsSetdefault skvs "properties" (Json.obj [])
        let props0 := ((skvs'.lookup "properties").getD (Json.obj []))
        let filtered := uses.filter
          (fun u => !(reservedAddins.any (fun r => pyEq u (Json.str r))))
        let st ← filtered.foldlM (applyOneUse root offers) (errors, props0)
        some (st.1, Json.obj (kvsSet skvs' "properties" st.2))
      | _ => none

/-- The `allOf` loop of `_validate_conditionals`: every subschema is validated
against the live buffer; if the buffer is non-empty afterwards it is set to
`backup + errors` (duplicating the backup, exactly as the source does). -/
def allOfLoop (vi : ViFn) (inst : Json) (path : String) :
    List String → Nat → List Json → Option (List String)
  | errors, _, [] => some errors
  | errors, idx, sub :: rest => do
    let e ← vi errors inst sub (path ++ "/allOf[" ++ toString idx ++ "]")
    let e' := if e.isEmpty then e else errors ++ e
    allOfLoop vi inst path e' (idx + 1) rest

/-- The `anyOf` loop of `_validate_conditionals`: each trial runs on an empty
buffer; a clean trial breaks with the buffer as the trial left it (the
pre-existing diagnostics in `errors0` are not restored), a failing trial
restores `errors0` and records its diagnostics. -/
def anyOfLoop (vi : ViFn) (errors0 : List String) (inst : Json) (path : String) :
    Nat → List String → List Json → Option (List String)
  | _, acc, [] =>
    some (errors0 ++ ["Instance at " ++ path ++ " does not satisfy anyOf: " ++ pyStrList acc])
  | idx, acc, sub :: rest => do
    let trial ← vi [] inst sub (path ++ "/anyOf[" ++ toString idx ++ "]")
    if trial.isEmpty then some trial
    else
      anyOfLoop vi errors0 inst path (idx + 1) (acc ++ ["anyOf[" ++ toString idx ++ "]: " ++ pyStrList trial]) rest

/-- The `oneOf` loop of `_validate_conditionals`: each trial runs on an empty
buffer and the buffer is restored afterwards; returns the number of clean
trials and the collected failure details. -/
def oneOfLoop (vi : ViFn) (inst : Json) (path : String) :
    Nat → Nat → List String → List Json → Option (Nat × List String)
  | _, count, acc, [] => some (count, acc)
  | idx, count, acc, sub :: rest => do
    let trial ← vi [] inst sub (path ++ "/oneOf[" ++ toString idx ++ "]")
    if trial.isEmpty then oneOfLoop vi inst path (idx + 1) (count + 1) acc rest
    else
      oneOfLoop vi inst path (idx + 1) count (acc ++ ["oneOf[" ++ toString idx ++ "]: " ++ pyStrList trial]) rest

/-- `JSONStructureInstanceValidator._validate_conditionals`: processes
`allOf`, `anyOf`, `oneOf`, `not`, `if`/`then`/`else` in source order, returns
the new buffer and whether any composition keyword was present.  A
composition keyword whose value is not a list/schema as iterated by the
source raises (`none`). -/
def validateConditionals (vi : ViFn) (errors : List String) (schema inst : Json)
    (path : String) : Option (List String × Bool) := do
  let stA ←
    match objGet schema "allOf" with
    | some (.arr subs) => (allOfLoop vi inst path errors 0 subs).map (fun e => (e, true))
    | some _ => none
    | none => some (errors, false)
  let stB ←
    match objGet schema "anyOf" with
    | some (.arr subs) => (anyOfLoop vi stA.1 inst path 0 [] subs).map (fun e => (e, true))
    | some _ => none
    | none => some stA
  let stC ←
    match objGet schema "oneOf" with
    | some (.arr subs) => do
      let r ← oneOfLoop vi inst path 0 0 [] subs
      let errs :=
        if r.1 ≠ 1 then
          stB.1 ++ ["Instance at " ++ path ++ " must match exactly one subschema in oneOf; matched "
            ++ toString r.1 ++ ". Details: " ++ pyStrList r.2]
        else stB.1
      some (errs, true)
    | some _ => none
    | none => some stB
  let stD ←
    match objGet schema "not" with
    | some sub => do
      let trial ← vi [] inst sub (path ++ "/not")
      let errs :=
        if trial.isEmpty then
          stC.1 ++ ["Instance at " ++ path ++ " should not validate against \x27not\x27 schema"]
        else stC.1
      some (errs, true)
    | none => some stC
  match objGet schema "if" with
  | some sIf => do
    let trial ← vi [] inst sIf (path ++ "/if")
    if trial.isEmpty then
      match objGet schema "then" with
      | some sThen => (vi stD.1 inst sThen (path ++ "/then")).map (fun e => (e, true))
      | none => some (stD.1, true)
    else
      match objGet schema "else" with
      | some sElse => (vi stD.1 inst sElse (path ++ "/else")).map (fun e => (e, true))
      | none => some (stD.1, true)
  | none => some stD

/-- The type names of the numeric-constraint section of
`_validate_validation_addins` (in source order). -/
def numericTypeNames : List String :=
  ["number", "integer", "float", "double", "decimal", "int32", "uint32",
   "int64", "uint64", "int128", "uint128"]

/-- The numeric-constraint section of `_validate_validation_addins`.  The
`try`/`except` around each comparison maps a `TypeError` (`pyLt`/`pyLe` =
`none`) to the corresponding "Cannot …" diagnostic. -/
def numericAddinChecks (errors : List String) (schema inst : Json) (path : String) :
    List String :=
  let e1 :=
    match objGet schema "minimum" with
    | some m =>
      match pyLt inst m with
      | some true => errors ++ ["Value at " ++ path ++ " is less than minimum " ++ pyStr m]
      | some false => errors
      | none => errors ++ ["Cannot compare value at " ++ path ++ " with minimum constraint"]
    | none => errors
  let e2 :=
    match objGet schema "maximum" with
    | some m =>
      match pyLt m inst with
      | some true => e1 ++ ["Value at " ++ path ++ " is greater than maximum " ++ pyStr m]
      | some false => e1
      | none => e1 ++ ["Cannot compare value at " ++ path ++ " with maximum constraint"]
    | none => e1
  let e3 :=
    if objGet schema "exclusiveMinimum" == some (Json.bool true) then
      match objGet schema "minimum" with
      | some m =>
        match pyLe inst m with
        | some true =>
          e2 ++ ["Value at " ++ path ++ " is not greater than exclusive minimum " ++ pyStr m]
        | some false => e2
        | none => e2 ++ ["Cannot evaluate exclusiveMinimum constraint at " ++ path]
      | none =>
        -- `instance <= float("-inf")` is false for every number, `TypeError` otherwise
        match pyNum inst with
        | some _ => e2
        | none => e2 ++ ["Cannot evaluate exclusiveMinimum constraint at " ++ path]
    else e2
  let e4 :=
    if objGet schema "exclusiveMaximum" == some (Json.bool true) then
      match objGet schema "maximum" with
      | some m =>
        match pyLe m inst with
        | some true =>
          e3 ++ ["Value at " ++ path ++ " is not less than exclusive maximum " ++ pyStr m]
        | some false => e3
        | none => e3 ++ ["Cannot evaluate exclusiveMaximum constraint at " ++ path]
      | none =>
        match pyNum inst with
        | some _ => e3
        | none => e3 ++ ["Cannot evaluate exclusiveMaximum constraint at " ++ path]
    else e3
  match objGet schema "multipleOf" with
  | some m =>
    match pyModNonzero inst m with
    | some true => e4 ++ ["Value at " ++ path ++ " is not a multiple of " ++ pyStr m]
    | some false => e4
    | none => e4 ++ ["Cannot evaluate multipleOf constraint at " ++ path]
  | none => e4

/-- The string-constraint section of `_validate_validation_addins`.  The
`len`, comparison, `re.compile`/`search` and `urlparse` calls here are not
guarded by `try`, so a failure is an uncaught exception (`none`). -/
def stringAddinChecks (reOk : String → Bool) (reSearch : String → String → Bool)
    (errors : List String) (schema inst : Json) (path : String) : Option (List String) := do
  let e1 ←
    match objGet schema "minLength" with
    | some m => do
      let l ← pyLen inst
      let b ← pyLt (.int l) m
      some (if b then errors ++ ["String at " ++ path ++ " shorter than minLength " ++ pyStr m]
            else errors)
    | none => some errors
  let e2 ←
    match objGet schema "maxLength" with
    | some m => do
      let l ← pyLen inst
      let b ← pyLt m (.int l)
      some (if b then e1 ++ ["String at " ++ path ++ " longer than maxLength " ++ pyStr m]
            else e1)
    | none => some e1
  let e3 ←
    match objGet schema "pattern" with
    | some (.str p) =>
      if reOk p then
        match inst with
        | .str s =>
          some (if reSearch p s then e2
                else e2 ++ ["String at " ++ path ++ " does not match pattern " ++ p])
        | _ => none
      else none
    | some _ => none
    | none => some e2
  match objGet schema "format" with
  | some (.str "email") => do
    let b ← pyIn (.str "@") inst
    some (if b then e3
          else e3 ++ ["String at " ++ path ++ " does not appear to be a valid email"])
  | some (.str "uri") =>
    match inst with
    | .str s =>
      some (if hasUriScheme s then e3
            else e3 ++ ["String at " ++ path ++ " does not appear to be a valid uri"])
    | _ => none
  | _ => some e3

/-- The array-constraint section of `_validate_validation_addins`. -/
def arrayAddinChecks (errors : List String) (schema inst : Json) (path : String) :
    Option (List String) := do
  let e1 ←
    match objGet schema "minItems" with
    | some m => do
      let l ← pyLen inst
      let b ← pyLt (.int l) m
      some (if b then errors ++ ["Array at " ++ path ++ " has fewer items than minItems " ++ pyStr m]
            else errors)
    | none => some errors
  let e2 ←
    match objGet schema "maxItems" with
    | some m => do
      let l ← pyLen inst
      let b ← pyLt m (.int l)
      some (if b then e1 ++ ["Array at " ++ path ++ " has more items than maxItems " ++ pyStr m]
            else e1)
    | none => some e1
  if objGet schema "uniqueItems" == some (Json.bool true) then
    match inst with
    | .arr xs =>
      some (if hasDuplicate (xs.map dumpsCanon) then
              e2 ++ ["Array at " ++ path ++ " does not have unique items"]
            else e2)
    | _ => none
  else some e2

/-- The `patternProperties`/`patternKeys` loop: for each (pattern, schema)
binding, an uncompilable pattern is diagnosed (the `try` catches `re.error`),
otherwise every matching instance property value is validated. -/
def patternPropsLoop (reOk : String → Bool) (reSearch : String → String → Bool) (vi : ViFn)
    (pats : List (String × Json)) (errors : List String) (instKvs : List (String × Json))
    (path : String) (invalidMsgTail : String) : Option (List String) :=
  pats.foldlM
    (fun errs p =>
      if reOk p.1 then
        instKvs.foldlM
          (fun errs' q =>
            if reSearch p.1 q.1 then vi errs' q.2 p.2 (path ++ "/" ++ q.1) else some errs')
          errs
      else
        some (errs ++ ["Invalid regular expression \x27" ++ p.1 ++ "\x27 in " ++
          invalidMsgTail ++ " at " ++ path]))
    errors

/-- The `dependentRequired` loop shared by the main object branch and the
object section of `_validate_validation_addins`. -/
def dependentRequiredLoop (deps : List (String × Json)) (errors : List String) (inst : Json)
    (path : String) : Option (List String) :=
  deps.foldlM
    (fun errs p => do
      let present ← pyIn (.str p.1) inst
      match p.2 with
      | .arr ds =>
        if present then
          ds.foldlM
            (fun errs' d => do
              let b ← pyIn d inst
              some (if b then errs'
                    else errs' ++ ["Property \x27" ++ p.1 ++ "\x27 at " ++ path ++
                      " requires dependent property \x27" ++ pyStr d ++ "\x27"]))
            errs
        else some errs
      | _ => some errs)
    errors

/-- The object-constraint section of `_validate_validation_addins`. -/
def objectAddinChecks (reOk : String → Bool) (reSearch : String → String → Bool) (vi : ViFn)
    (errors : List String) (schema inst : Json) (path : String) : Option (List String) := do
  let e1 ←
    match objGet schema "minProperties" with
    | some m =>
      match inst with
      | .obj kvs => do
        let b ← pyLt (.int kvs.length) m
        some (if b then errors ++ ["Object at " ++ path ++ " has fewer properties than minProperties " ++ pyStr m]
              else errors)
      | _ => none
    | none => some errors
  let e2 ←
    match objGet schema "maxProperties" with
    | some m =>
      match inst with
      | .obj kvs => do
        let b ← pyLt m (.int kvs.length)
        some (if b then e1 ++ ["Object at " ++ path ++ " has more properties than maxProperties " ++ pyStr m]
              else e1)
      | _ => none
    | none => some e1
  let e3 ←
    match objGet schema "patternProperties" with
    | some (.obj pats) =>
      match inst with
      | .obj instKvs => patternPropsLoop reOk reSearch vi pats e2 instKvs path "patternProperties"
      | _ => none
    | _ => some e2
  let e4 ←
    match objGet schema "propertyNames" with
    | some pns =>
      if (match pns with
          | .obj pkvs => pkvs.lookup "type" == some (Json.str "string")
          | _ => false) then
        match inst with
        | .obj instKvs =>
          instKvs.foldlM
            (fun errs (q : String × Json) => vi errs (.str q.1) pns (path ++ "/propertyName(" ++ q.1 ++ ")"))
            e3
        | _ => none
      else some (e3 ++ ["propertyNames schema must be of type string at " ++ path])
    | none => some e3
  match objGet schema "dependentRequired" with
  | some (.obj deps) => dependentRequiredLoop deps e4 inst path
  | _ => some e4

/-- The map-constraint section of `_validate_validation_addins`. -/
def mapAddinChecks (reOk : String → Bool) (reSearch : String → String → Bool) (vi : ViFn)
    (errors : List String) (schema inst : Json) (path : String) : Option (List String) := do
  let e1 ←
    match objGet schema "patternKeys" with
    | some (.obj pats) =>
      match inst with
      | .obj instKvs => patternPropsLoop reOk reSearch vi pats errors instKvs path "patternKeys"
      | _ => none
    | _ => some errors
  match objGet schema "keyNames" with
  | some kns =>
    if (match kns with
        | .obj kkvs => kkvs.lookup "type" == some (Json.str "string")
        | _ => false) then
      match inst with
      | .obj instKvs =>
        instKvs.foldlM
          (fun errs (q : String × Json) => vi errs (.str q.1) kns (path ++ "/keyName(" ++ q.1 ++ ")"))
          e1
      | _ => none
    else some (e1 ++ ["keyNames schema must be of type string at " ++ path])
  | none => some e1

/-- `JSONStructureInstanceValidator._validate_validation_addins`: the four
type-keyed constraint sections, in source order. -/
def validateValidationAddins (reOk : String → Bool) (reSearch : String → String → Bool)
    (vi : ViFn) (errors : List String) (schema inst : Json) (path : String) :
    Option (List String) := do
  let tv := objGet schema "type"
  let e1 :=
    if (match tv with
        | some (.str t) => numericTypeNames.contains t
        | _ => false) then
      numericAddinChecks errors schema inst path
    else errors
  let e2 ←
    if tv == some (.str "string") then stringAddinChecks reOk reSearch e1 schema inst path
    else some e1
  let e3 ←
    if tv == some (.str "array") then arrayAddinChecks e2 schema inst path
    else some e2
  let e4 ←
    if tv == some (.str "object") then objectAddinChecks reOk reSearch vi e3 schema inst path
    else some e3
  if tv == some (.str "map") then mapAddinChecks reOk reSearch vi e4 schema inst path
  else some e4

/-- `if addin not in schema["$uses"]: schema["$uses"].append(addin)` after a
`setdefault`: membership uses Python `in` semantics on the current `$uses`
value; appending to a non-list raises (`none`). -/
def addUseIfMissing (schema : Json) (name : String) : Option Json :=
  match objGet schema "$uses" with
  | some (.arr us) =>
    if us.any (fun e => pyEq (Json.str name) e) then some schema
    else
      match schema with
      | .obj kvs => some (.obj (kvsSet kvs "$uses" (.arr (us ++ [.str name]))))
      | _ => none
  | some (.str s) => if strContains s name then some schema else none
  | some (.obj kvs) => if kvsHas kvs name then some schema else none
  | some _ => none
  | none => none

/-- `schema.setdefault(k, v)`; raises on a non-dict (`none`). -/
def objSetdefault (j : Json) (k : String) (v : Json) : Option Json :=
  match j with
  | .obj kvs => some (.obj (kvsSetdefault kvs k v))
  | _ => none

/-- One instance-driven `$uses` addition of lines 92–99: if `name` is in the
instance's `$uses` and not in the schema's, append it. -/
def addFromInstanceUses (schema iu : Json) (name : String) : Option Json := do
  let b ← pyIn (.str name) iu
  if b then addUseIfMissing schema name else some schema

/-- Lines 83–99 of `validate_instance`: under the extended meta-schema add
all addins to the current schema node's `$uses`; under the validation
meta-schema copy the conditional/validation addins named by the instance's
`$uses`.  (In Python these mutate the schema node in place; on the top-level
call the node is the root document itself, see `validateTop`.) -/
def schemaUsesMutation (root schema inst : Json) : Option Json := do
  let s1 ←
    if objGet root "$schema" == some (Json.str extendedMetaUri) then do
      let s ← objSetdefault schema "$uses" (Json.arr [])
      allAddins.foldlM addUseIfMissing s
    else some schema
  if (match inst with | .obj ikvs => kvsHas ikvs "$uses" | _ => false) &&
      objGet root "$schema" == some (Json.str validationMetaUri) then do
    let s2 ← objSetdefault s1 "$uses" (Json.arr [])
    let iu := (objGet inst "$uses").getD .null
    let s3 ← addFromInstanceUses s2 iu "JSONStructureValidation"
    addFromInstanceUses s3 iu "JSONStructureConditionalComposition"
  else some s1

/-- The `has` loop of the object branch: `any(...)` lazily validates each
property value against the `has` schema on the live buffer and stops at the
first point where the whole buffer is empty. -/
def hasLoop (vi : ViFn) (hasSchema : Json) (path : String) :
    List String → List (String × Json) → Option (List String × Bool)
  | errors, [] => some (errors, false)
  | errors, (prop, val) :: rest => do
    let e ← vi errors val hasSchema (path ++ "/" ++ prop)
    if e.isEmpty then some (e, true) else hasLoop vi hasSchema path e rest

/-- The union-type loop of lines 148–163: each alternative is tried on an
empty buffer; the first clean alternative breaks with the buffer as the trial
left it (pre-existing diagnostics in `errors0` are not restored), failures
restore `errors0` and extend the aggregate. -/
def unionLoop (vi : ViFn) (errors0 : List String) (inst : Json) (path : String) :
    List String → List Json → Option (List String)
  | acc, [] =>
    some (errors0 ++ ["Instance at " ++ path ++ " does not match any type in union: " ++ pyStrList acc])
  | acc, t :: rest => do
    let trial ← vi [] inst (Json.obj [("type", t)]) path
    if trial.isEmpty then some trial
    else unionLoop vi errors0 inst path (acc ++ trial) rest

/-- The `object` branch of `validate_instance` (lines 287–323): required
keys, known properties, `additionalProperties`, `has`, `dependentRequired`. -/
def objectBranch (vi : ViFn) (errors : List String) (inst schema : Json) (path : String) :
    Option (List String) :=
  match inst with
  | .obj ikvs => do
    let props ← (match objGet schema "properties" with
      | some (.obj p) => some p | none => some ([] : List (String × Json)) | some _ => none)
    let req ← (match objGet schema "required" with
      | some (.arr r) => some r | none => some ([] : List Json) | some _ => none)
    let e1 := req.foldl
      (fun errs r =>
        let present := match r with | .str s => kvsHas ikvs s | _ => false
        if present then errs
        else errs ++ ["Missing required property \x27" ++ pyStr r ++ "\x27 at " ++ path])
      errors
    let e2 ← props.foldlM
      (fun errs (p : String × Json) =>
        match ikvs.lookup p.1 with
        | some v => vi errs v p.2 (path ++ "/" ++ p.1)
        | none => some errs)
      e1
    let e3 ←
      match objGet schema "additionalProperties" with
      | some (.bool false) =>
        some (ikvs.foldl
          (fun errs (q : String × Json) =>
            if kvsHas props q.1 then errs
            else errs ++ ["Additional property \x27" ++ q.1 ++ "\x27 not allowed at " ++ path])
          e2)
      | some (.obj addl) =>
        ikvs.foldlM
          (fun errs (q : String × Json) =>
            if kvsHas props q.1 then some errs
            else vi errs q.2 (.obj addl) (path ++ "/" ++ q.1))
          e2
      | some _ => some e2
      | none => some e2
    let e4 ←
      match objGet schema "has" with
      | some hasSchema => do
        let r ← hasLoop vi hasSchema path e3 ikvs
        some (if r.2 then r.1
              else r.1 ++ ["Object at " ++ path ++ " does not have any property satisfying \x27has\x27 schema"])
      | none => some e3
    match objGet schema "dependentRequired" with
    | some (.obj deps) => dependentRequiredLoop deps e4 (.obj ikvs) path
    | _ => some e4
  | _ => some (errors ++ ["Expected object at " ++ path ++ ", got " ++ pyTypeName inst])

/-- The type dispatch of `validate_instance` (lines 196–363) followed by the
validation-addin hook and `const`/`enum` (lines 365–377).  `sType` is the
string value of `schema_type` at dispatch time, `schema` the effective schema
after `$extends`/`$uses` merging, `inst` the instance (with `$uses` already
popped). -/
def validateDispatch (reOk : String → Bool) (reSearch : String → String → Bool) (root : Json)
    (vi : ViFn) (errors : List String) (inst schema : Json) (sType : String) (path : String) :
    Option (List String) := do
  let e1 ←
    match sType with
    | "any" => some errors
    | "string" =>
      some (match inst with
        | .str _ => errors
        | _ => errors ++ ["Expected string at " ++ path ++ ", got " ++ pyTypeName inst])
    | "number" =>
      some (match inst with
        | .int _ => errors
        | .float _ => errors
        | _ => errors ++ ["Expected number at " ++ path ++ ", got " ++ pyTypeName inst])
    | "boolean" =>
      some (match inst with
        | .bool _ => errors
        | _ => errors ++ ["Expected boolean at " ++ path ++ ", got " ++ pyTypeName inst])
    | "null" =>
      some (match inst with
        | .null => errors
        | _ => errors ++ ["Expected null at " ++ path ++ ", got " ++ pyTypeName inst])
    | "int32" =>
      some (match inst with
        | .bool b =>
          let v : Int := if b then 1 else 0
          if -(2 ^ 31) ≤ v ∧ v ≤ 2 ^ 31 - 1 then errors
          else errors ++ ["int32 value at " ++ path ++ " out of range"]
        | .int n =>
          if -(2 ^ 31) ≤ n ∧ n ≤ 2 ^ 31 - 1 then errors
          else errors ++ ["int32 value at " ++ path ++ " out of range"]
        | _ => errors ++ ["Expected int32 at " ++ path ++ ", got " ++ pyTypeName inst])
    | "uint32" =>
      some (match inst with
        | .bool b =>
          let v : Int := if b then 1 else 0
          if 0 ≤ v ∧ v ≤ 2 ^ 32 - 1 then errors
          else errors ++ ["uint32 value at " ++ path ++ " out of range"]
        | .int n =>
          if 0 ≤ n ∧ n ≤ 2 ^ 32 - 1 then errors
          else errors ++ ["uint32 value at " ++ path ++ " out of range"]
        | _ => errors ++ ["Expected uint32 at " ++ path ++ ", got " ++ pyTypeName inst])
    | "int64" =>
      some (match inst with
        | .str s =>
          match pyIntParse s with
          | some v =>
            if -(2 ^ 63) ≤ v ∧ v ≤ 2 ^ 63 - 1 then errors
            else errors ++ ["int64 value at " ++ path ++ " out of range"]
          | none => errors ++ ["Invalid int64 format at " ++ path]
        | _ => errors ++ ["Expected int64 as string at " ++ path ++ ", got " ++ pyTypeName inst])
    | "uint64" =>
      some (match inst with
        | .str s =>
          match pyIntParse s with
          | some v =>
            if 0 ≤ v ∧ v ≤ 2 ^ 64 - 1 then errors
            else errors ++ ["uint64 value at " ++ path ++ " out of range"]
          | none => errors ++ ["Invalid uint64 format at " ++ path]
        | _ => errors ++ ["Expected uint64 as string at " ++ path ++ ", got " ++ pyTypeName inst])
    | "float" =>
      some (match inst with
        | .bool _ => errors
        | .int _ => errors
        | .float _ => errors
        | _ => errors ++ ["Expected float at " ++ path ++ ", got " ++ pyTypeName inst])
    | "double" =>
      some (match inst with
        | .bool _ => errors
        | .int _ => errors
        | .float _ => errors
        | _ => errors ++ ["Expected double at " ++ path ++ ", got " ++ pyTypeName inst])
    | "decimal" =>
      some (match inst with
        | .str s =>
          match pyFloatParse s with
          | some _ => errors
          | none => errors ++ ["Invalid decimal format at " ++ path]
        | _ => errors ++ ["Expected decimal as string at " ++ path ++ ", got " ++ pyTypeName inst])
    | "date" =>
      some (if (match inst with | .str s => isDateStr s | _ => false) then errors
            else errors ++ ["Expected date (YYYY-MM-DD) at " ++ path])
    | "datetime" =>
      some (if (match inst with | .str s => isDatetimeStr s | _ => false) then errors
            else errors ++ ["Expected datetime (RFC3339) at " ++ path])
    | "time" =>
      some (if (match inst with | .str s => isTimeStr s | _ => false) then errors
            else errors ++ ["Expected time (HH:MM:SS) at " ++ path])
    | "duration" =>
      some (match inst with
        | .str _ => errors
        | _ => errors ++ ["Expected duration as string at " ++ path])
    | "uuid" =>
      some (match inst with
        | .str s => if pyUuidOk s then errors else errors ++ ["Invalid uuid format at " ++ path]
        | _ => errors ++ ["Expected uuid as string at " ++ path])
    | "uri" =>
      some (match inst with
        | .str s => if hasUriScheme s then errors else errors ++ ["Invalid uri format at " ++ path]
        | _ => errors ++ ["Expected uri as string at " ++ path])
    | "binary" =>
      some (match inst with
        | .str _ => errors
        | _ => errors ++ ["Expected binary (base64 string) at " ++ path])
    | "jsonpointer" =>
      some (if (match inst with | .str s => isJsonPointerStr s | _ => false) then errors
            else errors ++ ["Expected JSON pointer format at " ++ path])
    | "object" => objectBranch vi errors inst schema path
    | "array" =>
      match inst with
      | .arr xs =>
        (match objGet schema "items" with
         | some itemsSchema =>
           if pyTruthy itemsSchema then
             xs.enum.foldlM
               (fun errs (p : Nat × Json) =>
                 vi errs p.2 itemsSchema (path ++ "[" ++ toString p.1 ++ "]"))
               errors
           else some errors
         | none => some errors)
      | _ => some (errors ++ ["Expected array at " ++ path ++ ", got " ++ pyTypeName inst])
    | "set" =>
      match inst with
      | .arr xs =>
        let e := if hasDuplicate (xs.map dumpsCanon) then
            errors ++ ["Set at " ++ path ++ " contains duplicate items"]
          else errors
        (match objGet schema "items" with
         | some itemsSchema =>
           if pyTruthy itemsSchema then
             xs.enum.foldlM
               (fun errs (p : Nat × Json) =>
                 vi errs p.2 itemsSchema (path ++ "[" ++ toString p.1 ++ "]"))
               e
           else some e
         | none => some e)
      | _ => some (errors ++ ["Expected set (unique array) at " ++ path ++ ", got " ++ pyTypeName inst])
    | "map" =>
      match inst with
      | .obj ikvs =>
        (match objGet schema "values" with
         | some vs =>
           if pyTruthy vs then
             ikvs.foldlM
               (fun errs (q : String × Json) => vi errs q.2 vs (path ++ "/" ++ q.1))
               errors
           else some errors
         | none => some errors)
      | _ => some (errors ++ ["Expected map (object) at " ++ path ++ ", got " ++ pyTypeName inst])
    | "tuple" =>
      match inst with
      | .arr xs => do
        let props ← (match objGet schema "properties" with
          | some (.obj p) => some p | none => some ([] : List (String × Json)) | some _ => none)
        if xs.length ≠ props.length then
          some (errors ++ ["Tuple at " ++ path ++ " length " ++ toString xs.length ++
            " does not equal expected " ++ toString props.length])
        else
          (props.zip xs).foldlM
            (fun errs (pq : (String × Json) × Json) =>
              vi errs pq.2 pq.1.2 (path ++ "/" ++ pq.1.1))
            errors
      | _ => some (errors ++ ["Expected tuple (array) at " ++ path ++ ", got " ++ pyTypeName inst])
    | _ => some (errors ++ ["Unsupported type \x27" ++ sType ++ "\x27 at " ++ path])
  let e2 ←
    match objGet root "$uses" with
    | some uv => do
      let b ← pyIn (.str "JSONStructureValidation") uv
      if b then validateValidationAddins reOk reSearch vi e1 schema inst path else some e1
    | none => some e1
  let e3 :=
    match objGet schema "const" with
    | some c =>
      if pyEq inst c then e2
      else e2 ++ ["Value at " ++ path ++ " does not equal const " ++ pyStr c]
    | none => e2
  match objGet schema "enum" with
  | some ev => do
    let b ← pyIn inst ev
    some (if b then e3 else e3 ++ ["Value at " ++ path ++ " not in enum " ++ pyStr ev])
  | none => some e3

/-- Lines 187–194 of `validate_instance`: abstract rejection, then `$uses`
add-in application (popping `$uses` from the visited instance), then the type
dispatch. -/
def validateAfterExtends (reOk : String → Bool) (reSearch : String → String → Bool) (root : Json)
    (vi : ViFn) (errors : List String) (inst schema : Json) (sType : String) (path : String) :
    Option (List String) := do
  if objGet schema "abstract" == some (Json.bool true) then
    some (errors ++ ["Abstract schema at " ++ path ++ " cannot be used for instance validation"])
  else
    if (match inst with | .obj ikvs => kvsHas ikvs "$uses" | _ => false) then do
      let r ← applyUses root errors schema inst
      validateDispatch reOk reSearch root vi r.1 (objDel inst "$uses") r.2 sType path
    else
      validateDispatch reOk reSearch root vi errors inst schema sType path

/-- Lines 170–184 of `validate_instance`: `$extends` flattening (conflict
diagnostics, then `dict(base)` updated with the extending node, `$extends`
stripped), then the rest of the pipeline. -/
def validateAfterType (reOk : String → Bool) (reSearch : String → String → Bool) (root : Json)
    (vi : ViFn) (errors : List String) (inst schema : Json) (sType : String) (path : String) :
    Option (List String) :=
  match objGet schema "$extends" with
  | some (.str e) =>
    (match resolveRef root e with
     | none => some (errors ++ ["Cannot resolve $extends " ++ e ++ " at " ++ path])
     | some base =>
       match base with
       | .obj bkvs => do
         let baseProps ← (match bkvs.lookup "properties" with
           | some (.obj bp) => some bp | none => some ([] : List (String × Json)) | some _ => none)
         let derivedProps ← (match objGet schema "properties" with
           | some (.obj dp) => some dp | none => some ([] : List (String × Json)) | some _ => none)
         let errs2 := errors ++ baseProps.filterMap
           (fun p =>
             if kvsHas derivedProps p.1 then
               some ("Property \x27" ++ p.1 ++
                 "\x27 is inherited via $extends and must not be redefined at " ++ path)
             else none)
         let skvs ← (match schema with | .obj s => some s | _ => none)
         let merged := Json.obj (kvsDel (kvsUpdate bkvs skvs) "$extends")
         validateAfterExtends reOk reSearch root vi errs2 inst merged sType path
       | _ => none)
  | some _ => none
  | none => validateAfterExtends reOk reSearch root vi errors inst schema sType path

/-- Lines 148–167 of `validate_instance`: union types and the
must-be-a-string check on `schema_type`, then the rest of the pipeline. -/
def validateFromUnion (reOk : String → Bool) (reSearch : String → String → Bool) (root : Json)
    (vi : ViFn) (errors : List String) (inst schema : Json) (schemaType : Option Json)
    (path : String) : Option (List String) :=
  match schemaType with
  | some (.arr ts) => unionLoop vi errors inst path [] ts
  | some (.str sType) => validateAfterType reOk reSearch root vi errors inst schema sType path
  | _ => some (errors ++ ["Schema at " ++ path ++ " has invalid \x27type\x27"])

/-- `JSONStructureInstanceValidator.validate_instance(instance, schema, path)`
with the schema argument explicit, the errors buffer threaded, the root
document as a read-only parameter (see the header for the aliasing
conventions) and an explicit recursion budget (`none`: no normal return). -/
def validateInstance (reOk : String → Bool) (reSearch : String → String → Bool) (root : Json) :
    Nat → List String → Json → Json → String → Option (List String)
  | 0, _, _, _, _ => none
  | Nat.succ f, errors0, inst, schema0, path =>
    match schema0 with
    | .obj _ => do
      let schema1 ← schemaUsesMutation root schema0 inst
      let errors1 ←
        if (match inst with | .obj ikvs => kvsHas ikvs "$uses" | _ => false) &&
            objGet root "$schema" == some (Json.str coreMetaUri) then do
          let iu := (objGet inst "$uses").getD .null
          let bV ← pyIn (.str "JSONStructureValidation") iu
          let b ← if bV then some true else pyIn (.str "JSONStructureConditionalComposition") iu
          if b then
            some (errors0 ++ ["Instance at " ++ path ++
              " references JSONStructureConditionalComposition or JSONStructureValidation addins but the schema does not support them"])
          else some errors0
        else some errors0
      match objGet schema1 "$ref" with
      | some (.str ref) =>
        (match resolveRef root ref with
         | none => some (errors1 ++ ["Cannot resolve $ref " ++ ref ++ " at " ++ path])
         | some resolved => validateInstance reOk reSearch root f errors1 inst resolved path)
      | some _ => none
      | none => do
        let condSt ←
          match objGet root "$uses" with
          | some uv => do
            let b ← pyIn (.str "JSONStructureConditionalComposition") uv
            if b then
              validateConditionals (validateInstance reOk reSearch root f) errors1 schema1 inst path
            else some (errors1, false)
          | none => some (errors1, false)
        let errors2 := condSt.1
        let hasConditionals := condSt.2
        let schemaTypeRaw := objGet schema1 "type"
        let typeFalsy := match schemaTypeRaw with | none => true | some v => !pyTruthy v
        if typeFalsy && hasConditionals then some errors2
        else do
          let errors3 :=
            if typeFalsy then errors2 ++ ["Schema at " ++ path ++ " has no \x27type\x27"]
            else errors2
          match schemaTypeRaw with
          | some (.obj tkvs) =>
            (match tkvs.lookup "$ref" with
             | some (.str r) =>
               (match resolveRef root r with
                | none =>
                  some (errors3 ++ ["Cannot resolve $ref " ++ r ++ " at " ++ path ++ "/type"])
                | some resolved => do
                  let rt ← (match resolved with
                    | .obj rkvs => some ((rkvs.lookup "type").getD .null)
                    | _ => none)
                  let skvs ← (match schema1 with | .obj s => some s | _ => none)
                  let newKvs := kvsSet skvs "type" rt
                  let newKvs2 ←
                    if (match resolved with | .obj rkvs => kvsHas rkvs "properties" | _ => false) then do
                      let rp ← (match objGet resolved "properties" with
                        | some (.obj rp) => some rp | _ => none)
                      let sp ← (match newKvs.lookup "properties" with
                        | some (.obj sp) => some sp | some _ => none | none => some [])
                      some (kvsSet newKvs "properties" (.obj (kvsUpdate rp sp)))
                    else some newKvs
                  validateFromUnion reOk reSearch root (validateInstance reOk reSearch root f)
                    errors3 inst (.obj newKvs2) (newKvs2.lookup "type") path)
             | some _ => none
             | none => some (errors3 ++ ["Schema at " ++ path ++ " has invalid \x27type\x27"]))
          | _ =>
            validateFromUnion reOk reSearch root (validateInstance reOk reSearch root f)
              errors3 inst schema1 schemaTypeRaw path
    | _ => none

/-- The top-level entry `validator.validate_instance(instance)` (schema
defaulting to the root document): the `$uses` mutations of lines 83–99 are
applied to the root document itself (in Python `schema` aliases
`self.root_schema` on this call), and the possibly mutated root is returned
alongside the final buffer. -/
def validateTop (reOk : String → Bool) (reSearch : String → String → Bool) (root : Json)
    (fuel : Nat) (errors : List String) (inst : Json) : Option (List String × Json) := do
  let root' ← schemaUsesMutation root root inst
  let res ← validateInstance reOk reSearch root' fuel errors inst root' "#"
  some (res, root')

/-- Build `imported_defs` for one import keyword (lines 633–643): for
`$import`, the external document under its `name` when it has both `name` and
`type`, updated with its `definitions`; for `$importdefs`, only the
`definitions`.  Non-dict external documents and non-string `name` values are
not modeled (`none`). -/
def importedDefs (key : String) (external : Json) : Option (List (String × Json)) :=
  match external with
  | .obj ekvs =>
    if key == "$import" then do
      let base ←
        if kvsHas ekvs "type" && kvsHas ekvs "name" then
          match ekvs.lookup "name" with
          | some (.str n) => some [(n, external)]
          | _ => none
        else some ([] : List (String × Json))
      match ekvs.lookup "definitions" with
      | some (.obj dkvs) => some (kvsUpdate base dkvs)
      | _ => some base
    else
      match ekvs.lookup "definitions" with
      | some (.obj dkvs) => some dkvs
      | _ => some ([] : List (String × Json))
  | _ => none

/-- Process one snapshot key of `_process_imports` (lines 616–647): when it is
an import keyword, check the gate and the URI, fetch, merge non-clobberingly
(`if k not in obj: obj[k] = v`) and delete the keyword. -/
def importStep (fetch : String → Option Json) (allowImport : Bool) (path : String)
    (st : List String × List (String × Json)) (key : String) :
    Option (List String × List (String × Json)) :=
  if key == "$import" || key == "$importdefs" then
    if !allowImport then
      some (st.1 ++ ["JSONStructureImport keyword \x27" ++ key ++
        "\x27 encountered but allow_import not enabled at " ++ path ++ "/" ++ key], st.2)
    else
      match st.2.lookup key with
      | none => some st
      | some (.str uri) =>
        if !isAbsUri uri then
          some (st.1 ++ ["JSONStructureImport keyword \x27" ++ key ++
            "\x27 value must be an absolute URI at " ++ path ++ "/" ++ key], st.2)
        else
          match fetch uri with
          | none =>
            some (st.1 ++ ["Unable to fetch external schema from " ++ uri ++ " at " ++
              path ++ "/" ++ key], st.2)
          | some external => do
            let defs ← importedDefs key external
            let merged := defs.foldl
              (fun acc (p : String × Json) => if kvsHas acc p.1 then acc else acc ++ [p])
              st.2
            some (st.1, kvsDel merged key)
      | some _ =>
        some (st.1 ++ ["JSONStructureImport keyword \x27" ++ key ++
          "\x27 value must be a string URI at " ++ path ++ "/" ++ key], st.2)
  else some st

/-- `JSONStructureInstanceValidator._process_imports` (the same algorithm as
`JSONStructureSchemaCoreValidator._process_imports`, which differs only in
how it formats diagnostics): walk the tree; on each dict, process the import
keywords over a snapshot of the keys, then recurse into the current values.
The in-place mutation is modeled by returning the transformed value; the
fuel bounds the recursion depth (imports can re-import fetched documents
without bound). -/
def processImports (fetch : String → Option Json) (allowImport : Bool) :
    Nat → List String → Json → String → Option (List String × Json)
  | 0, _, _, _ => none
  | Nat.succ f, errors, obj, path =>
    match obj with
    | .obj kvs => do
      let st ← (kvs.map Prod.fst).foldlM (importStep fetch allowImport path) (errors, kvs)
      let final ← st.2.foldlM
        (fun (acc : List String × List (String × Json)) (p : String × Json) => do
          let r ← processImports fetch allowImport f acc.1 p.2 (path ++ "/" ++ p.1)
          some (r.1, acc.2 ++ [(p.1, r.2)]))
        (st.1, ([] : List (String × Json)))
      some (final.1, Json.obj final.2)
    | .arr xs => do
      let final ← xs.enum.foldlM
        (fun (acc : List String × List Json) (p : Nat × Json) => do
          let r ← processImports fetch allowImport f acc.1 p.2 (path ++ "[" ++ toString p.1 ++ "]")
          some (r.1, acc.2 ++ [r.2]))
        (errors, ([] : List Json))
      some (final.1, Json.arr final.2)
    | other => some (errors, other)

/-- `KNOWN_EXTENSIONS` of the schema validator (insertion order of the model's
set is immaterial; only membership is observed). -/
def knownExtensions : List String :=
  ["JSONStructureImport", "JSONStructureAlternateNames", "JSONStructureUnits",
   "JSONStructureConditionalComposition", "JSONStructureValidation"]

/-- `set.add` on the ordered-list model of a Python set. -/
def setAdd (s : List String) (x : String) : List String :=
  if s.contains x then s else s ++ [x]

/-- One step of the `$uses` loop of `_check_enabled_extensions`: recognized
extension names are added to the set; unhashable entries (`list`/`dict`)
raise a `TypeError` (`none`); other hashable values are simply not in the
known set. -/
def usesFoldStep (acc : List String) (e : Json) : Option (List String) :=
  match e with
  | .str s => some (if knownExtensions.contains s then setAdd acc s else acc)
  | .arr _ => none
  | .obj _ => none
  | _ => some acc

/-- `JSONStructureSchemaCoreValidator._check_enabled_extensions(doc)`: the
enabled-extension set derived from the root `$schema` URI (substring tests)
and the `$uses` array, starting from the empty set.  `none` models the
`TypeError` of `in` on a non-string `$schema` and of an unhashable `$uses`
entry. -/
def checkEnabledFrom (uri : String) (doc : Json) : Option (List String) :=
  let base :=
    if strContains uri "extended" || strContains uri "validation" then
      if strContains uri "validation" then
        setAdd (setAdd [] "JSONStructureConditionalComposition") "JSONStructureValidation"
      else []
    else []
  match (objGet doc "$uses").getD (Json.arr []) with
  | .arr us => us.foldlM usesFoldStep base
  | _ => some base

/-- Dispatch of `_check_enabled_extensions` on `doc.get("$schema", "")`
(`in` on a non-string raises). -/
def checkEnabledExtensions (doc : Json) : Option (List String) :=
  match objGet doc "$schema" with
  | none => checkEnabledFrom "" doc
  | some (.str s) => checkEnabledFrom s doc
  | some _ => none

/-- `_err(message, location)` of the schema validator when no source text is
available. -/
def errFmt (msg location : String) : String :=
  msg ++ " (Location: " ++ location ++ ", line/column unknown)"

/-- The traversal loop of `_check_json_pointer` (lines 848–860): the first
`/`-field (index 0) is skipped entirely; remaining fields are unescaped and
looked up in dicts, diagnosing a missing key or a non-object. -/
def checkJsonPointerLoop (path : String) (errors : List String) :
    Json → List String → List String
  | _, [] => errors
  | cur, p :: rest =>
    let p' := unescapeSeg p
    match cur with
    | .obj kvs =>
      match kvs.lookup p' with
      | some v => checkJsonPointerLoop path errors v rest
      | none => errors ++ [errFmt ("JSON Pointer segment \x27/" ++ p' ++ "\x27 not found.") path]
    | _ =>
      errors ++ [errFmt ("JSON Pointer segment \x27/" ++ p' ++ "\x27 not applicable to non-object.") path]

/-- `JSONStructureSchemaCoreValidator._check_json_pointer(pointer, doc, path)`
(modeled without source text, so `_err` appends the "Location" form). -/
def checkJsonPointer (pointer doc : Json) (errors : List String) (path : String) : List String :=
  match pointer with
  | .str p =>
    if !strStarts p "#" then
      errors ++ [errFmt "JSON Pointer must start with \x27#\x27 when referencing the same document." path]
    else if p == "#" then errors
    else checkJsonPointerLoop path errors doc ((splitChar '/' p.toList).drop 1)
  | _ => errors ++ [errFmt "JSON Pointer must be a string." path]

/-- Plain key-by-key traversal from a value, used by the specification-side
pointer resolvers below. -/
def traverseKeys : Json → List String → Option Json
  | target, [] => some target
  | target, k :: rest =>
    match target with
    | .obj kvs =>
      match kvs.lookup k with
      | some v => traverseKeys v rest
      | none => none
    | _ => none

/-- The pointer-resolution algorithm exactly as the claim describes it
(specification side, for comparison with `resolveRef`): the empty pointer `#`
returns the root; otherwise the suffix after the single leading `#` is split
on `/` (a leading empty field from a suffix starting with `/` is the usual
pointer artifact and is dropped), each segment is unescaped `~1` then `~0`,
and traversal descends only into objects by key. -/
def claimResolve (root : Json) (ref : String) : Option Json :=
  if ref = "#" then some root
  else
    let segs :=
      match splitChar '/' (ref.toList.drop 1) with
      | "" :: rest => rest
      | l => l
    traverseKeys root (segs.map unescapeSeg)

/-- The amended description of `_resolve_ref` (specification side): all
leading `#` characters are stripped, the rest is split on `/`, empty raw
segments are skipped wherever they occur, the remaining segments are
unescaped `~1` then `~0`, and traversal descends only into objects by key. -/
def amendedResolve (root : Json) (ref : String) : Option Json :=
  if strStarts ref "#" then
    traverseKeys root
      (((splitChar '/' (ref.toList.dropWhile (fun c => c == '#'))).filter
        (fun p => p ≠ "")).map unescapeSeg)
  else none

/-! ### Fixtures used by the concrete theorems -/

/-- A degenerate "every pattern compiles" regex oracle for concrete runs that
never reach a user-supplied pattern. -/
def reAlwaysOk : String → Bool := fun _ => true

/-- A degenerate "nothing matches" regex-search oracle for concrete runs that
never reach a user-supplied pattern. -/
def reNoMatch : String → String → Bool := fun _ _ => false

/-- Root schema used by the cyclic-`$ref` scenario: the root refers to
`#/definitions/A`, which refers to itself. -/
def fixRootCycle : Json :=
  Json.obj [("$ref", Json.str "#/definitions/A"),
    ("definitions", Json.obj [("A", Json.obj [("$ref", Json.str "#/definitions/A")])])]

/-- The self-referential definition node of `fixRootCycle`. -/
def fixCycleNode : Json := Json.obj [("$ref", Json.str "#/definitions/A")]

/-- Root schema whose `$schema` is the extended meta-schema URI. -/
def fixRootExtended : Json :=
  Json.obj [("$schema", Json.str extendedMetaUri), ("type", Json.str "any")]

/-- `fixRootExtended` after `validate_instance` has appended all addins to its
`$uses` (the in-place mutation of lines 83–90 on the top-level call). -/
def fixRootExtendedMut : Json :=
  Json.obj [("$schema", Json.str extendedMetaUri), ("type", Json.str "any"),
    ("$uses", Json.arr (allAddins.map Json.str))]

/-- An object root schema with a number property `a` and a union-typed
property `b`. -/
def fixRootUnionObj : Json :=
  Json.obj [("type", Json.str "object"),
    ("properties", Json.obj
      [("a", Json.obj [("type", Json.str "number")]),
       ("b", Json.obj [("type", Json.arr [Json.str "string", Json.str "number"])])])]

/-- A minimal root whose `$uses` enables the conditional-composition addin. -/
def fixRootCond : Json :=
  Json.obj [("$uses", Json.arr [Json.str "JSONStructureConditionalComposition"])]

/-- A root offering the add-in `Extra` with property `extra: number`. -/
def fixRootOffers : Json :=
  Json.obj [("$offers", Json.obj [("Extra",
    Json.obj [("properties", Json.obj [("extra", Json.obj [("type", Json.str "number")])])])])]

/-- An object schema already declaring `extra: string` (conflicting with the
`Extra` add-in of `fixRootOffers`). -/
def fixSchemaConflict : Json :=
  Json.obj [("type", Json.str "object"),
    ("properties", Json.obj [("extra", Json.obj [("type", Json.str "string")])])]

/-- A tuple schema with two declared properties. -/
def fixTupleSchema : Json :=
  Json.obj [("type", Json.str "tuple"),
    ("properties", Json.obj
      [("x", Json.obj [("type", Json.str "string")]),
       ("y", Json.obj [("type", Json.str "string")])])]

/-! ### C10 -/

/-- C10: `validate_instance` treats booleans inconsistently across numeric
type tags — for every boolean instance, type `"number"` produces a
type-mismatch diagnostic, while `"int32"`, `"uint32"`, `"float"` and
`"double"` accept the boolean with no diagnostic (`True`/`False` pass the
32-bit range checks as `1`/`0`). -/
theorem c10_bool_numeric_inconsistency (b : Bool) :
    validateInstance reAlwaysOk reNoMatch (Json.obj []) 2 [] (Json.bool b)
        (Json.obj [("type", Json.str "number")]) "#" =
      some ["Expected number at #, got bool"] ∧
    validateInstance reAlwaysOk reNoMatch (Json.obj []) 2 [] (Json.bool b)
        (Json.obj [("type", Json.str "int32")]) "#" = some [] ∧
    validateInstance reAlwaysOk reNoMatch (Json.obj []) 2 [] (Json.bool b)
        (Json.obj [("type", Json.str "uint32")]) "#" = some [] ∧
    validateInstance reAlwaysOk reNoMatch (Json.obj []) 2 [] (Json.bool b)
        (Json.obj [("type", Json.str "float")]) "#" = some [] ∧
    validateInstance reAlwaysOk reNoMatch (Json.obj []) 2 [] (Json.bool b)
        (Json.obj [("type", Json.str "double")]) "#" = some [] := by
  cases b <;> exact ⟨rfl, rfl, rfl, rfl, rfl⟩

/-! ### C2 -/

/-- C2 (evaluation at the failing input): the diagnostic buffer does not only
accumulate — a clean trial branch of a union type or of `anyOf` leaves the
buffer as the trial left it, discarding the pre-existing diagnostics; on the
end-to-end object instance the type error on property `a` (shown in the last
conjunct to be emitted in isolation) is wiped by the succeeding union on
property `b`, so the whole validation reports no diagnostics at all. -/
theorem c2_success_branch_discards_buffer :
    validateInstance reAlwaysOk reNoMatch (Json.obj []) 3 ["prior"] (Json.str "x")
        (Json.obj [("type", Json.arr [Json.str "string", Json.str "number"])]) "#" =
      some [] ∧
    validateInstance reAlwaysOk reNoMatch fixRootCond 3 ["prior"] (Json.str "x")
        (Json.obj [("anyOf", Json.arr [Json.obj [("type", Json.str "string")]])]) "#" =
      some [] ∧
    validateTop reAlwaysOk reNoMatch fixRootUnionObj 5 []
        (Json.obj [("a", Json.str "notnum"), ("b", Json.str "ok")]) =
      some ([], fixRootUnionObj) ∧
    validateInstance reAlwaysOk reNoMatch fixRootUnionObj 4 [] (Json.str "notnum")
        (Json.obj [("type", Json.str "number")]) "#/a" =
      some ["Expected number at #/a, got str"] :=
  ⟨rfl, rfl, rfl, rfl⟩

/-! ### C4 -/

/-- On the self-referential `$ref` chain, each `validate_instance` call
resolves the pointer back to the same node and recurses: no budget ever
suffices. -/
theorem validateInstance_cycle_diverges (f : Nat) :
    validateInstance reAlwaysOk reNoMatch fixRootCycle f [] (Json.int 0) fixCycleNode "#" =
      none := by
  induction f with
  | zero => rfl
  | succ f ih =>
    calc validateInstance reAlwaysOk reNoMatch fixRootCycle (f + 1) [] (Json.int 0)
            fixCycleNode "#"
        = validateInstance reAlwaysOk reNoMatch fixRootCycle f [] (Json.int 0)
            fixCycleNode "#" := rfl
      _ = none := ih

/-- C4: the claim's cycle handling is absent from the code — on a schema whose
`$ref` chain is cyclic, `validate_instance` recurses without bound (Python:
`RecursionError`) instead of terminating with a cycle diagnostic: no recursion
budget whatsoever makes the call return. -/
theorem c4_cyclic_ref_never_terminates (fuel : Nat) :
    validateTop reAlwaysOk reNoMatch fixRootCycle fuel [] (Json.int 0) = none := by
  cases fuel with
  | zero => rfl
  | succ f =>
    calc validateTop reAlwaysOk reNoMatch fixRootCycle (f + 1) [] (Json.int 0)
        = (validateInstance reAlwaysOk reNoMatch fixRootCycle f [] (Json.int 0)
            fixCycleNode "#").bind (fun res => some (res, fixRootCycle)) := rfl
      _ = none := by rw [validateInstance_cycle_diverges f]; rfl

/-! ### C5 -/

/-- C5 (counterexample): `validate_instance` does mutate the root schema
document after import expansion — under the extended meta-schema the
top-level call appends all addin names to the root's `$uses` array, so the
root value after the call differs from the value before it. -/
theorem c5_counterexample :
    validateTop reAlwaysOk reNoMatch fixRootExtended 3 [] (Json.int 7) =
      some ([], fixRootExtendedMut) ∧ fixRootExtendedMut ≠ fixRootExtended := by
  exact ⟨rfl, fun h =>
    absurd (congrArg (fun j => (objGet j "$uses").isSome) h) (by decide)⟩

/-- C5 (amended): the mutation is systematic — for every integer instance and
every recursion budget, the top-level call under the extended meta-schema
returns with the root's `$uses` extended by all four addin names (the
`$extends`/type-`$ref`/`$uses` merges do materialize fresh values, but the
lines 83–99 `$uses` mutation writes through to the root document). -/
theorem c5_amended_extended_meta_mutates_root (f : Nat) (n : Int) :
    validateTop reAlwaysOk reNoMatch fixRootExtended (f + 1) [] (Json.int n) =
      some ([], fixRootExtendedMut) := rfl

/-! ### C1 -/

/-- C1 (counterexample): on an add-in property conflict the pre-existing
property does not win — `_apply_uses` emits the conflict diagnostic but then
`merged["properties"].update(addin_props)` overwrites: the effective schema
maps `extra` to the add-in's `{"type": "number"}`, not the schema's
pre-existing `{"type": "string"}`. -/
theorem c1_counterexample :
    applyUses fixRootOffers [] fixSchemaConflict
        (Json.obj [("$uses", Json.arr [Json.str "Extra"]), ("extra", Json.int 123)]) =
      some
        (["Add-in property \x27extra\x27 from add-in \x27Extra\x27 conflicts with existing property"],
         Json.obj [("type", Json.str "object"),
           ("properties", Json.obj [("extra", Json.obj [("type", Json.str "number")])])]) ∧
    Json.obj [("type", Json.str "number")] ≠ Json.obj [("type", Json.str "string")] :=
  ⟨rfl, fun h =>
    absurd (congrArg (fun j => j == Json.obj [("type", Json.str "number")]) h) (by decide)⟩

/-! ### C3 -/

/-- C3 (counterexample): for a document whose `$schema` URI names the extended
meta, `_check_enabled_extensions` enables nothing at all — in particular
`JSONStructureValidation` is not enabled, contradicting "all known addins are
enabled" (the `if "extended" in schema_uri or "validation" in schema_uri`
branch only acts when `"validation"` is a substring). -/
theorem c3_counterexample :
    ∃ s, checkEnabledExtensions
        (Json.obj [("$schema", Json.str "https://json-structure.github.io/meta/extended/v0/#")]) =
          some s ∧
      "JSONStructureValidation" ∉ s :=
  ⟨[], rfl, by decide⟩

/-! ### C8 -/

/-- C8 (counterexample): the pointer resolvers do not implement the claim's
split-the-suffix algorithm verbatim.  `_resolve_ref` skips empty raw segments
(and strips all leading `#`), so `#//a` resolves to the value of `a` although
the claim's algorithm reports not-found; `_check_json_pointer` skips the whole
first `/`-field, so `#foo/a` passes without diagnostic although the claim's
algorithm cannot traverse `foo`. -/
theorem c8_counterexample :
    resolveRef (Json.obj [("a", Json.int 1)]) "#//a" = some (Json.int 1) ∧
    claimResolve (Json.obj [("a", Json.int 1)]) "#//a" = none ∧
    checkJsonPointer (Json.str "#foo/a") (Json.obj [("a", Json.int 1)]) [] "#/x" = [] ∧
    claimResolve (Json.obj [("a", Json.int 1)]) "#foo/a" = none :=
  ⟨rfl, rfl, rfl, rfl⟩

/-- Diagnostic-producing traversal over pre-unescaped segments
(specification side, compared with `checkJsonPointerLoop`). -/
def ptrWalk (path : String) (errors : List String) : Json → List String → List String
  | _, [] => errors
  | cur, k :: rest =>
    match cur with
    | .obj kvs =>
      match kvs.lookup k with
      | some v => ptrWalk path errors v rest
      | none => errors ++ [errFmt ("JSON Pointer segment \x27/" ++ k ++ "\x27 not found.") path]
    | _ =>
      errors ++ [errFmt ("JSON Pointer segment \x27/" ++ k ++ "\x27 not applicable to non-object.") path]

/-- The amended description of `_check_json_pointer` (specification side):
non-strings and pointers without a leading `#` are diagnosed, `#` passes, and
otherwise the whole first `/`-field is discarded, every remaining field
(including empty ones) is unescaped `~1` then `~0` and used as a key, with
not-found/non-object diagnostics. -/
def amendedCheckPtr (pointer doc : Json) (errors : List String) (path : String) : List String :=
  match pointer with
  | .str p =>
    if !strStarts p "#" then
      errors ++ [errFmt "JSON Pointer must start with \x27#\x27 when referencing the same document." path]
    else if p == "#" then errors
    else ptrWalk path errors doc (((splitChar '/' p.toList).drop 1).map unescapeSeg)
  | _ => errors ++ [errFmt "JSON Pointer must be a string." path]

/-- The skip-empty-then-unescape loop of `_resolve_ref` equals filtering the
empty raw segments, unescaping, and traversing. -/
theorem resolveParts_eq_traverse (parts : List String) :
    ∀ target : Json,
      resolveParts target parts =
        traverseKeys target ((parts.filter (fun p => p ≠ "")).map unescapeSeg) := by
  induction parts with
  | nil => intro target; rfl
  | cons p rest ih =>
    intro target
    by_cases hp : p = ""
    · subst hp; simp [resolveParts, ih]
    · cases target with
      | obj kvs =>
        cases h : kvs.lookup (unescapeSeg p) with
        | some v => simp [resolveParts, hp, traverseKeys, h, ih]
        | none => simp [resolveParts, hp, traverseKeys, h]
      | null => simp [resolveParts, hp, traverseKeys]
      | bool b => simp [resolveParts, hp, traverseKeys]
      | int n => simp [resolveParts, hp, traverseKeys]
      | float q => simp [resolveParts, hp, traverseKeys]
      | str s => simp [resolveParts, hp, traverseKeys]
      | arr xs => simp [resolveParts, hp, traverseKeys]

/-- The unescape-as-you-walk loop of `_check_json_pointer` equals unescaping
every field first and then walking. -/
theorem checkJsonPointerLoop_eq_walk (parts : List String) :
    ∀ (cur : Json) (errors : List String) (path : String),
      checkJsonPointerLoop path errors cur parts =
        ptrWalk path errors cur (parts.map unescapeSeg) := by
  induction parts with
  | nil => intro cur errors path; rfl
  | cons p rest ih =>
    intro cur errors path
    cases cur with
    | obj kvs =>
      cases h : kvs.lookup (unescapeSeg p) with
      | some v => simp [checkJsonPointerLoop, ptrWalk, h, ih]
      | none => simp [checkJsonPointerLoop, ptrWalk, h]
    | null => simp [checkJsonPointerLoop, ptrWalk]
    | bool b => simp [checkJsonPointerLoop, ptrWalk]
    | int n => simp [checkJsonPointerLoop, ptrWalk]
    | float q => simp [checkJsonPointerLoop, ptrWalk]
    | str s => simp [checkJsonPointerLoop, ptrWalk]
    | arr xs => simp [checkJsonPointerLoop, ptrWalk]

/-- C8 (amended): both pointer implementations match the amended description.
`_resolve_ref` strips all leading `#` characters, splits on `/`, skips empty
raw segments wherever they occur, unescapes `~1` then `~0` and traverses
objects by key, returning `None` on any failure (`#` alone yields the root);
`_check_json_pointer` discards the entire first `/`-field, treats every
remaining field (empty ones included) as a key after the same unescaping, and
reports diagnostics instead of `None`. -/
theorem c8_amended_pointer_resolution (root : Json) (ref : String) (pointer doc : Json)
    (errors : List String) (path : String) :
    resolveRef root ref = amendedResolve root ref ∧
    checkJsonPointer pointer doc errors path = amendedCheckPtr pointer doc errors path := by
  constructor
  · by_cases h : strStarts ref "#"
    · simp [resolveRef, amendedResolve, h, resolveParts_eq_traverse]
    · simp [resolveRef, amendedResolve, h]
  · cases pointer with
    | str p =>
      by_cases h1 : strStarts p "#"
      · by_cases h2 : p == "#"
        · simp [checkJsonPointer, amendedCheckPtr, h1, h2]
        · simp [checkJsonPointer, amendedCheckPtr, h1, h2, checkJsonPointerLoop_eq_walk]
      · simp [checkJsonPointer, amendedCheckPtr, h1]
    | null => rfl
    | bool b => rfl
    | int n => rfl
    | float q => rfl
    | arr xs => rfl
    | obj kvs => rfl

/-- `setAdd` preserves membership. -/
theorem mem_setAdd_of_mem {acc : List String} {x y : String} (h : x ∈ acc) :
    x ∈ setAdd acc y := by
  unfold setAdd; split
  · exact h
  · exact List.mem_append_left _ h

/-- The `$uses` fold of `_check_enabled_extensions` only grows the set. -/
theorem usesFold_mono (us : List Json) :
    ∀ (acc s : List String), us.foldlM usesFoldStep acc = some s → ∀ x ∈ acc, x ∈ s := by
  induction us with
  | nil =>
    intro acc s h x hx
    simp only [List.foldlM] at h
    cases h; exact hx
  | cons e rest ih =>
    intro acc s h x hx
    cases e with
    | str t =>
      simp only [List.foldlM, usesFoldStep, Option.bind] at h
      split at h
      · exact ih _ _ h x (mem_setAdd_of_mem hx)
      · exact ih _ _ h x hx
    | arr a => simp [List.foldlM, usesFoldStep] at h
    | obj a => simp [List.foldlM, usesFoldStep] at h
    | null => exact ih _ _ (by simpa [List.foldlM, usesFoldStep] using h) x hx
    | bool b => exact ih _ _ (by simpa [List.foldlM, usesFoldStep] using h) x hx
    | int n => exact ih _ _ (by simpa [List.foldlM, usesFoldStep] using h) x hx
    | float q => exact ih _ _ (by simpa [List.foldlM, usesFoldStep] using h) x hx

/-- C3 (amended): the starting extension set is derived from the `$schema` URI
by substring tests — a URI containing `"validation"` enables both
`JSONStructureConditionalComposition` and `JSONStructureValidation`, while any
other URI (in particular one naming the extended meta) enables nothing by
itself: without a `$uses` array the enabled set is empty. -/
theorem c3_amended_enabled_extensions (doc : Json) (u : String) (s : List String)
    (hSchema : objGet doc "$schema" = some (Json.str u))
    (hRun : checkEnabledExtensions doc = some s) :
    (strContains u "validation" = true →
      "JSONStructureConditionalComposition" ∈ s ∧ "JSONStructureValidation" ∈ s) ∧
    (strContains u "validation" = false → objGet doc "$uses" = none → s = []) := by
  unfold checkEnabledExtensions at hRun
  rw [hSchema] at hRun
  constructor
  · intro hv
    unfold checkEnabledFrom at hRun
    simp only [hv, Bool.or_true, if_true] at hRun
    revert hRun
    split
    · intro hRun
      refine ⟨usesFold_mono _ _ _ hRun _ ?_, usesFold_mono _ _ _ hRun _ ?_⟩ <;> decide
    · intro hRun
      cases hRun
      decide
  · intro hv hUses
    unfold checkEnabledFrom at hRun
    rw [hUses] at hRun
    cases he : strContains u "extended" <;>
      simp [he, hv, Option.getD] at hRun <;>
      first
      | exact hRun.symm
      | exact hRun

/-- Witness for `c3_amended_enabled_extensions` at the validation meta URI. -/
theorem c3_amended_enabled_extensions_witness :
    (strContains "https://json-structure.github.io/meta/validation/v0/#" "validation" = true →
      "JSONStructureConditionalComposition" ∈
        (["JSONStructureConditionalComposition", "JSONStructureValidation"] : List String) ∧
      "JSONStructureValidation" ∈
        (["JSONStructureConditionalComposition", "JSONStructureValidation"] : List String)) ∧
    (strContains "https://json-structure.github.io/meta/validation/v0/#" "validation" = false →
      objGet (Json.obj [("$schema", Json.str "https://json-structure.github.io/meta/validation/v0/#")])
          "$uses" = none →
      (["JSONStructureConditionalComposition", "JSONStructureValidation"] : List String) = []) :=
  c3_amended_enabled_extensions
    (Json.obj [("$schema", Json.str "https://json-structure.github.io/meta/validation/v0/#")])
    "https://json-structure.github.io/meta/validation/v0/#"
    ["JSONStructureConditionalComposition", "JSONStructureValidation"] rfl rfl

/-- `List.lookup` at the head key. -/
theorem lookup_cons_self {k : String} {v : Json} {rest : List (String × Json)} :
    ((k, v) :: rest).lookup k = some v := by
  simp [List.lookup]

/-- `List.lookup` skips a head with a different key. -/
theorem lookup_cons_ne {k k1 : String} {v : Json} {rest : List (String × Json)}
    (h : k ≠ k1) : ((k1, v) :: rest).lookup k = rest.lookup k := by
  simp [List.lookup, beq_eq_false_iff_ne.mpr h]

/-- A successful lookup means the key is present. -/
theorem kvsHas_of_lookup {kvs : List (String × Json)} {k : String} {v : Json}
    (h : kvs.lookup k = some v) : kvsHas kvs k = true := by
  induction kvs with
  | nil => simp [List.lookup] at h
  | cons q rest ih =>
    by_cases hk : k = q.1
    · simp [kvsHas, hk]
    · rw [show q = (q.1, q.2) from rfl, lookup_cons_ne hk] at h
      have := ih h
      simp [kvsHas] at this ⊢
      exact Or.inr this

/-- A present key has a value. -/
theorem lookup_of_kvsHas {kvs : List (String × Json)} {k : String}
    (h : kvsHas kvs k = true) : ∃ v, kvs.lookup k = some v := by
  induction kvs with
  | nil => simp [kvsHas] at h
  | cons q rest ih =>
    by_cases hk : k = q.1
    · exact ⟨q.2, by rw [show q = (q.1, q.2) from rfl, ← hk]; exact lookup_cons_self⟩
    · simp [kvsHas] at h
      rcases h with h | h
      · exact absurd h.symm hk
      · rcases ih (by simpa [kvsHas] using h) with ⟨v, hv⟩
        exact ⟨v, by rw [show q = (q.1, q.2) from rfl, lookup_cons_ne hk]; exact hv⟩

/-- `kvsSet` writes the given key. -/
theorem kvsSet_lookup_self (kvs : List (String × Json)) (k : String) (v : Json) :
    (kvsSet kvs k v).lookup k = some v := by
  induction kvs with
  | nil => rw [kvsSet]; exact lookup_cons_self
  | cons q rest ih =>
    obtain ⟨k1, v1⟩ := q
    rw [kvsSet]
    by_cases hq : k1 = k
    · rw [if_pos (by simp [hq])]
      simp [List.lookup, hq]
    · rw [if_neg (by simp [hq])]
      rw [lookup_cons_ne (fun h => hq h.symm)]
      exact ih

/-- `kvsSet` leaves other keys alone. -/
theorem kvsSet_lookup_ne (kvs : List (String × Json)) {k k' : String} (v : Json)
    (h : k' ≠ k) : (kvsSet kvs k v).lookup k' = kvs.lookup k' := by
  induction kvs with
  | nil => rw [kvsSet, lookup_cons_ne h]
  | cons q rest ih =>
    obtain ⟨k1, v1⟩ := q
    rw [kvsSet]
    by_cases hq : k1 = k
    · rw [if_pos (by simp [hq])]
      subst hq
      rw [lookup_cons_ne h, lookup_cons_ne h]
    · rw [if_neg (by simp [hq])]
      by_cases hq' : k' = k1
      · simp [List.lookup, hq']
      · rw [lookup_cons_ne hq', lookup_cons_ne hq']
        exact ih

/-- `dict.update` leaves keys outside the update alone. -/
theorem kvsUpdate_lookup_of_not_key (upd : List (String × Json)) :
    ∀ (kvs : List (String × Json)) (k : String), (∀ p ∈ upd, p.1 ≠ k) →
      (kvsUpdate kvs upd).lookup k = kvs.lookup k := by
  induction upd with
  | nil => intro kvs k _; rfl
  | cons q rest ih =>
    intro kvs k h
    show (kvsUpdate (kvsSet kvs q.1 q.2) rest).lookup k = _
    rw [ih _ _ (fun p hp => h p (List.mem_cons_of_mem _ hp))]
    exact kvsSet_lookup_ne _ _ (fun hk => h q (List.mem_cons_self _ _) hk.symm)

/-- `dict.update` writes the update's value for keys of the update (keys of a
parsed dict are unique). -/
theorem kvsUpdate_lookup_of_key (upd : List (String × Json)) :
    ∀ (kvs : List (String × Json)) (k : String) (v : Json),
      (upd.map Prod.fst).Nodup → upd.lookup k = some v →
      (kvsUpdate kvs upd).lookup k = some v := by
  induction upd with
  | nil => intro kvs k v _ h; simp [List.lookup] at h
  | cons q rest ih =>
    intro kvs k v hnodup h
    obtain ⟨k1, v1⟩ := q
    show (kvsUpdate (kvsSet kvs k1 v1) rest).lookup k = some v
    by_cases hk : k = k1
    · subst hk
      rw [lookup_cons_self] at h
      cases h
      rw [kvsUpdate_lookup_of_not_key]
      · exact kvsSet_lookup_self _ _ _
      · intro p hp hpk
        rw [List.map_cons] at hnodup
        have hm : p.1 ∈ rest.map Prod.fst := List.mem_map_of_mem Prod.fst hp
        rw [hpk] at hm
        exact (List.nodup_cons.mp hnodup).1 hm
    · rw [lookup_cons_ne hk] at h
      refine ih _ _ _ ?_ h
      rw [List.map_cons] at hnodup
      exact (List.nodup_cons.mp hnodup).2

/-- C1 (amended): when an instance's `$uses` names a non-reserved add-in
offered in the root's `$offers` and one of the add-in's property names
already exists in the effective schema's properties, `_apply_uses` emits the
conflict diagnostic for that name but the add-in wins: the merged properties
map the conflicting name to the add-in's property schema
(`merged["properties"].update(addin_props)` overwrites). -/
theorem c1_amended_addin_wins
    (root : Json) (errors : List String) (skvs : List (String × Json)) (inst : Json)
    (offers akvs aprops sprops : List (String × Json)) (X p : String)
    (hInstUses : objGet inst "$uses" = some (Json.arr [Json.str X]))
    (hOffers : objGet root "$offers" = some (Json.obj offers))
    (hOffer : offers.lookup X = some (Json.obj akvs))
    (hNoRef : akvs.lookup "$ref" = none)
    (hAProps : akvs.lookup "properties" = some (Json.obj aprops))
    (hSProps : skvs.lookup "properties" = some (Json.obj sprops))
    (hX : X ∉ reservedAddins)
    (hpS : kvsHas sprops p = true)
    (hpA : kvsHas aprops p = true)
    (hNodupA : (aprops.map Prod.fst).Nodup) :
    ∃ confs,
      applyUses root errors (Json.obj skvs) inst =
        some (errors ++ confs,
          Json.obj (kvsSet skvs "properties" (Json.obj (kvsUpdate sprops aprops)))) ∧
      addinConflictMsg p (Json.str X) ∈ confs ∧
      (kvsUpdate sprops aprops).lookup p = aprops.lookup p := by
  have hAny : reservedAddins.any (fun r => pyEq (Json.str X) (Json.str r)) = false := by
    rw [List.any_eq_false]
    intro r hr
    show ¬ ((X == r) = true)
    exact fun hb => hX ((beq_iff_eq ..).mp hb ▸ hr)
  have hSetdef : kvsSetdefault skvs "properties" (Json.obj []) = skvs := by
    unfold kvsSetdefault
    rw [if_pos (kvsHas_of_lookup hSProps)]
  refine ⟨aprops.filterMap
      (fun q => if kvsHas sprops q.1 then some (addinConflictMsg q.1 (Json.str X)) else none),
    ?_, ?_, ?_⟩
  · unfold applyUses
    rw [hInstUses]
    show (if !pyTruthy (Json.arr [Json.str X]) then _ else _) = _
    rw [if_neg (by simp [pyTruthy])]
    simp only [hOffers, Option.getD, Option.bind_eq_bind, Option.some_bind,
      hSetdef, hSProps, List.filter, hAny, Bool.not_false, List.foldlM, applyOneUse,
      hOffer, hNoRef, mergeAddinProps, hAProps]
    rfl
  · rcases (by simpa [kvsHas, List.any_eq_true] using hpA :
        ∃ q ∈ aprops, (q.1 == p) = true) with ⟨q, hqmem, hq1⟩
    exact List.mem_filterMap.mpr
      ⟨q, hqmem, by rw [(beq_iff_eq ..).mp hq1, if_pos hpS]⟩
  · rcases lookup_of_kvsHas hpA with ⟨v, hv⟩
    rw [hv]
    exact kvsUpdate_lookup_of_key aprops sprops p v hNodupA hv

/-- Witness for `c1_amended_addin_wins` at the `Extra`/`extra` fixture. -/
theorem c1_amended_addin_wins_witness :
    ∃ confs,
      applyUses fixRootOffers [] fixSchemaConflict
          (Json.obj [("$uses", Json.arr [Json.str "Extra"]), ("extra", Json.int 123)]) =
        some ([] ++ confs,
          Json.obj (kvsSet [("type", Json.str "object"),
              ("properties", Json.obj [("extra", Json.obj [("type", Json.str "string")])])]
            "properties"
            (Json.obj (kvsUpdate [("extra", Json.obj [("type", Json.str "string")])]
              [("extra", Json.obj [("type", Json.str "number")])])))) ∧
      addinConflictMsg "extra" (Json.str "Extra") ∈ confs ∧
      (kvsUpdate [("extra", Json.obj [("type", Json.str "string")])]
          [("extra", Json.obj [("type", Json.str "number")])]).lookup "extra" =
        [("extra", Json.obj [("type", Json.str "number")])].lookup "extra" :=
  c1_amended_addin_wins fixRootOffers []
    [("type", Json.str "object"),
     ("properties", Json.obj [("extra", Json.obj [("type", Json.str "string")])])]
    (Json.obj [("$uses", Json.arr [Json.str "Extra"]), ("extra", Json.int 123)])
    [("Extra", Json.obj [("properties", Json.obj [("extra", Json.obj [("type", Json.str "number")])])])]
    [("properties", Json.obj [("extra", Json.obj [("type", Json.str "number")])])]
    [("extra", Json.obj [("type", Json.str "number")])]
    [("extra", Json.obj [("type", Json.str "string")])]
    "Extra" "extra" rfl rfl rfl rfl rfl rfl (by decide) rfl rfl (by decide)

/-- With no root `$schema`, the lines 83–99 mutation leaves the schema node
unchanged. -/
theorem schemaUsesMutation_benign (root schema inst : Json)
    (hSchema : objGet root "$schema" = none) :
    schemaUsesMutation root schema inst = some schema := by
  unfold schemaUsesMutation
  rw [hSchema]
  have h1 : ((none : Option Json) == some (Json.str extendedMetaUri)) = false := rfl
  have h2 : ((none : Option Json) == some (Json.str validationMetaUri)) = false := rfl
  simp only [h1, h2, Bool.and_false, Bool.false_eq_true, if_false, Option.bind_eq_bind,
    Option.some_bind, ite_false]


theorem validateDispatch_tuple (reOk : String → Bool) (reSearch : String → String → Bool)
    (root : Json) (vi : ViFn) (errors : List String) (xs : List Json)
    (P : List (String × Json)) (path : String)
    (hUses : objGet root "$uses" = none) :
    validateDispatch reOk reSearch root vi errors (Json.arr xs)
        (Json.obj [("type", Json.str "tuple"), ("properties", Json.obj P)]) "tuple" path =
      if xs.length ≠ P.length then
        some (errors ++ ["Tuple at " ++ path ++ " length " ++ toString xs.length ++
          " does not equal expected " ++ toString P.length])
      else
        (P.zip xs).foldlM
          (fun errs (pq : (String × Json) × Json) =>
            vi errs pq.2 pq.1.2 (path ++ "/" ++ pq.1.1)) errors := by
  have hstep : validateDispatch reOk reSearch root vi errors (Json.arr xs)
      (Json.obj [("type", Json.str "tuple"), ("properties", Json.obj P)]) "tuple" path =
    (if xs.length ≠ P.length then
      (fun e1 =>
        match objGet root "$uses" with
        | some uv => do
            let b ← pyIn (Json.str "JSONStructureValidation") uv
            if b then
              validateValidationAddins reOk reSearch vi e1
                (Json.obj [("type", Json.str "tuple"), ("properties", Json.obj P)])
                (Json.arr xs) path >>= (fun y => some y)
            else some e1
        | none => some e1)
        (errors ++ ["Tuple at " ++ path ++ " length " ++ toString xs.length ++
          " does not equal expected " ++ toString P.length])
    else
      (P.zip xs).foldlM
        (fun errs (pq : (String × Json) × Json) =>
          vi errs pq.2 pq.1.2 (path ++ "/" ++ pq.1.1)) errors >>=
      (fun e1 =>
        match objGet root "$uses" with
        | some uv => do
            let b ← pyIn (Json.str "JSONStructureValidation") uv
            if b then
              validateValidationAddins reOk reSearch vi e1
                (Json.obj [("type", Json.str "tuple"), ("properties", Json.obj P)])
                (Json.arr xs) path >>= (fun y => some y)
            else some e1
        | none => some e1)) := rfl
  rw [hstep, hUses]
  by_cases hlen : xs.length = P.length
  · rw [if_neg (fun hne => hne hlen), if_neg (fun hne => hne hlen)]
    cases hfold : (P.zip xs).foldlM
        (fun errs (pq : (String × Json) × Json) =>
          vi errs pq.2 pq.1.2 (path ++ "/" ++ pq.1.1)) errors with
    | none => rfl
    | some r => rfl
  · rw [if_pos hlen, if_pos hlen]

theorem validateInstance_tuple_step (reOk : String → Bool) (reSearch : String → String → Bool)
    (root : Json) (f : Nat) (errors : List String) (xs : List Json)
    (P : List (String × Json)) (path : String)
    (hSchema : objGet root "$schema" = none)
    (hUses : objGet root "$uses" = none) :
    validateInstance reOk reSearch root (f + 1) errors (Json.arr xs)
        (Json.obj [("type", Json.str "tuple"), ("properties", Json.obj P)]) path =
      validateDispatch reOk reSearch root (validateInstance reOk reSearch root f) errors
        (Json.arr xs) (Json.obj [("type", Json.str "tuple"), ("properties", Json.obj P)])
        "tuple" path := by
  show (do
      let schema1 ← schemaUsesMutation root
        (Json.obj [("type", Json.str "tuple"), ("properties", Json.obj P)]) (Json.arr xs)
      let errors1 ← some errors
      match objGet schema1 "$ref" with
      | some (.str ref) =>
        (match resolveRef root ref with
         | none => some (errors1 ++ ["Cannot resolve $ref " ++ ref ++ " at " ++ path])
         | some resolved => validateInstance reOk reSearch root f errors1 (Json.arr xs) resolved path)
      | some _ => none
      | none => do
        let condSt ←
          match objGet root "$uses" with
          | some uv => do
            let b ← pyIn (.str "JSONStructureConditionalComposition") uv
            if b then
              validateConditionals (validateInstance reOk reSearch root f) errors1 schema1 (Json.arr xs) path
            else some (errors1, false)
          | none => some (errors1, false)
        let errors2 := condSt.1
        let hasConditionals := condSt.2
        let schemaTypeRaw := objGet schema1 "type"
        let typeFalsy := match schemaTypeRaw with | none => true | some v => !pyTruthy v
        if typeFalsy && hasConditionals then some errors2
        else do
          let errors3 :=
            if typeFalsy then errors2 ++ ["Schema at " ++ path ++ " has no \x27type\x27"]
            else errors2
          match schemaTypeRaw with
          | some (.obj tkvs) =>
            (match tkvs.lookup "$ref" with
             | some (.str r) =>
               (match resolveRef root r with
                | none =>
                  some (errors3 ++ ["Cannot resolve $ref " ++ r ++ " at " ++ path ++ "/type"])
                | some resolved => do
                  let rt ← (match resolved with
                    | .obj rkvs => some ((rkvs.lookup "type").getD .null)
                    | _ => none)
                  let skvs ← (match schema1 with | .obj s => some s | _ => none)
                  let newKvs := kvsSet skvs "type" rt
                  let newKvs2 ←
                    if (match resolved with | .obj rkvs => kvsHas rkvs "properties" | _ => false) then do
                      let rp ← (match objGet resolved "properties" with
                        | some (.obj rp) => some rp | _ => none)
                      let sp ← (match newKvs.lookup "properties" with
                        | some (.obj sp) => some sp | some _ => none | none => some [])
                      some (kvsSet newKvs "properties" (.obj (kvsUpdate rp sp)))
                    else some newKvs
                  validateFromUnion reOk reSearch root (validateInstance reOk reSearch root f)
                    errors3 (Json.arr xs) (.obj newKvs2) (newKvs2.lookup "type") path)
             | some _ => none
             | none => some (errors3 ++ ["Schema at " ++ path ++ " has invalid \x27type\x27"]))
          | _ =>
            validateFromUnion reOk reSearch root (validateInstance reOk reSearch root f)
              errors3 (Json.arr xs) schema1 schemaTypeRaw path) = _
  rw [schemaUsesMutation_benign _ _ _ hSchema, hUses]
  rfl

/-- C7: against a schema of type `tuple` with declared properties `P`, an
array instance is diagnosed with an arity error exactly when its length
differs from the number of declared properties; on equal lengths each element
is validated positionally against the property schemas in insertion order
(lines 351–361 of `validate_instance`). -/
theorem c7_tuple_arity_and_positional (reOk : String → Bool)
    (reSearch : String → String → Bool) (root : Json) (f : Nat) (errors : List String)
    (xs : List Json) (P : List (String × Json)) (path : String)
    (hSchema : objGet root "$schema" = none)
    (hUses : objGet root "$uses" = none) :
    validateInstance reOk reSearch root (f + 1) errors (Json.arr xs)
        (Json.obj [("type", Json.str "tuple"), ("properties", Json.obj P)]) path =
      if xs.length ≠ P.length then
        some (errors ++ ["Tuple at " ++ path ++ " length " ++ toString xs.length ++
          " does not equal expected " ++ toString P.length])
      else
        (P.zip xs).foldlM
          (fun errs (pq : (String × Json) × Json) =>
            validateInstance reOk reSearch root f errs pq.2 pq.1.2 (path ++ "/" ++ pq.1.1))
          errors :=
  (validateInstance_tuple_step reOk reSearch root f errors xs P path hSchema hUses).trans
    (validateDispatch_tuple reOk reSearch root (validateInstance reOk reSearch root f)
      errors xs P path hUses)

/-- Concrete run of `c7_tuple_arity_and_positional`: a 3-element array against
`fixTupleSchema` (two declared properties) yields exactly the arity
diagnostic. -/
theorem c7_tuple_arity_and_positional_witness :
    validateInstance reAlwaysOk reNoMatch (Json.obj []) 1 []
        (Json.arr [Json.int 1, Json.int 2, Json.int 3]) fixTupleSchema "#" =
      some ["Tuple at # length 3 does not equal expected 2"] :=
  (c7_tuple_arity_and_positional reAlwaysOk reNoMatch (Json.obj []) 0 []
      [Json.int 1, Json.int 2, Json.int 3]
      [("x", Json.obj [("type", Json.str "string")]),
       ("y", Json.obj [("type", Json.str "string")])] "#" rfl rfl).trans
    (by rw [if_pos (by decide)]; rfl)

/-- Whether one `oneOf` trial (at its enumerated index) passes cleanly. -/
def oneOfPasses (vi : ViFn) (inst : Json) (path : String) (p : Nat × Json) : Bool :=
  match vi [] inst p.2 (path ++ "/oneOf[" ++ toString p.1 ++ "]") with
  | some l => l.isEmpty
  | none => false

section DBG
variable (l : List Json)
example : l.enum = l.enumFrom 0 := rfl
example (a : Json) (n : Nat) : (a :: l).enumFrom n = (n, a) :: l.enumFrom (n + 1) := rfl
end DBG

/-- If every trial of the tail returns normally, `oneOfLoop` returns the
starting count plus the number of clean trials, and appends its failure
details to the accumulator. -/
theorem oneOfLoop_spec (vi : ViFn) (inst : Json) (path : String) :
    ∀ (subs : List Json) (idx count : Nat) (acc : List String),
      (∀ p ∈ subs.enumFrom idx, (vi [] inst p.2 (path ++ "/oneOf[" ++ toString p.1 ++ "]")).isSome) →
      ∃ details, oneOfLoop vi inst path idx count acc subs =
        some (count + (subs.enumFrom idx).countP (oneOfPasses vi inst path), acc ++ details) := by
  intro subs
  induction subs with
  | nil =>
    intro idx count acc _
    exact ⟨[], by simp [oneOfLoop]⟩
  | cons s rest ih =>
    intro idx count acc h
    have hs := h (idx, s) (by rw [List.enumFrom]; exact List.mem_cons_self _ _)
    obtain ⟨trial, htrial⟩ := Option.isSome_iff_exists.mp hs
    have hrest : ∀ p ∈ rest.enumFrom (idx + 1),
        (vi [] inst p.2 (path ++ "/oneOf[" ++ toString p.1 ++ "]")).isSome := by
      intro p hp
      exact h p (by rw [List.enumFrom]; exact List.mem_cons_of_mem _ hp)
    cases he : trial.isEmpty with
    | true =>
      obtain ⟨d, hd⟩ := ih (idx + 1) (count + 1) acc hrest
      refine ⟨d, ?_⟩
      rw [List.enumFrom]
      simp only [oneOfLoop, htrial, Option.bind_eq_bind, Option.some_bind, he, if_true, hd,
        List.countP_cons, oneOfPasses, htrial, he]
      simp only [Option.some.injEq, Prod.mk.injEq]
      exact ⟨by omega, trivial⟩
    | false =>
      obtain ⟨d, hd⟩ := ih (idx + 1) count
        (acc ++ ["oneOf[" ++ toString idx ++ "]: " ++ pyStrList trial]) hrest
      refine ⟨["oneOf[" ++ toString idx ++ "]: " ++ pyStrList trial] ++ d, ?_⟩
      rw [List.enumFrom]
      simp only [oneOfLoop, htrial, Option.bind_eq_bind, Option.some_bind, he, if_false, hd,
        List.countP_cons, oneOfPasses, htrial, he, List.append_assoc]
      simp only [Bool.false_eq_true, ite_false, Nat.add_zero]

/-- C6: under the conditional-composition extension, a schema carrying only
`oneOf: [S1..Sn]` (with every trial returning normally) appends a diagnostic
to the incoming buffer exactly when the number of subschemas the instance
passes cleanly differs from 1, and the buffer state from before the `oneOf`
is preserved as a prefix regardless of outcome (lines 411–427 of
`_validate_conditionals`). -/
theorem c6_oneOf_exactly_one (vi : ViFn) (errors : List String) (subs : List Json)
    (inst : Json) (path : String)
    (hTrials : ∀ p ∈ subs.enum,
      (vi [] inst p.2 (path ++ "/oneOf[" ++ toString p.1 ++ "]")).isSome) :
    ∃ details : List String,
      validateConditionals vi errors (Json.obj [("oneOf", Json.arr subs)]) inst path =
        some (errors ++ details, true) ∧
      (details = [] ↔ subs.enum.countP (oneOfPasses vi inst path) = 1) := by
  have hstep : validateConditionals vi errors (Json.obj [("oneOf", Json.arr subs)]) inst path =
      (do
        let r ← oneOfLoop vi inst path 0 0 [] subs
        let errs :=
          if r.1 ≠ 1 then
            errors ++ ["Instance at " ++ path ++
              " must match exactly one subschema in oneOf; matched " ++ toString r.1 ++
              ". Details: " ++ pyStrList r.2]
          else errors
        some (errs, true)) := rfl
  obtain ⟨d0, hd0⟩ := oneOfLoop_spec vi inst path subs 0 0 [] hTrials
  rw [Nat.zero_add] at hd0
  have hd1 : oneOfLoop vi inst path 0 0 [] subs =
      some (subs.enum.countP (oneOfPasses vi inst path), [] ++ d0) := hd0
  rw [hstep, hd1]
  simp only [Option.bind_eq_bind, Option.some_bind, List.nil_append]
  by_cases hN : subs.enum.countP (oneOfPasses vi inst path) = 1
  · refine ⟨[], ?_, by simp [hN]⟩
    rw [if_neg (fun hne => hne hN)]
    simp
  · refine ⟨["Instance at " ++ path ++
      " must match exactly one subschema in oneOf; matched " ++
      toString (subs.enum.countP (oneOfPasses vi inst path)) ++
      ". Details: " ++ pyStrList d0], ?_, ?_⟩
    · rw [if_pos hN]
    · simp only [List.cons_ne_nil, false_iff]
      exact hN

/-- Concrete run of `c6_oneOf_exactly_one`: the string `"hello"` passes both
subschemas of `oneOf: [\x7b"type":"string"\x7d, \x7b"type":"any"\x7d]`, so the count is 2
and a diagnostic is appended after the pre-existing entry `"pre"`. -/
theorem c6_oneOf_exactly_one_witness :
    ∃ details : List String,
      validateConditionals (validateInstance reAlwaysOk reNoMatch (Json.obj []) 1) ["pre"]
          (Json.obj [("oneOf", Json.arr
            [Json.obj [("type", Json.str "string")], Json.obj [("type", Json.str "any")]])])
          (Json.str "hello") "#" =
        some (["pre"] ++ details, true) ∧
      (details = [] ↔
        ([Json.obj [("type", Json.str "string")], Json.obj [("type", Json.str "any")]].enum.countP
          (oneOfPasses (validateInstance reAlwaysOk reNoMatch (Json.obj []) 1)
            (Json.str "hello") "#")) = 1) :=
  c6_oneOf_exactly_one (validateInstance reAlwaysOk reNoMatch (Json.obj []) 1) ["pre"]
    [Json.obj [("type", Json.str "string")], Json.obj [("type", Json.str "any")]]
    (Json.str "hello") "#" (by
      intro p hp
      have he : ([Json.obj [("type", Json.str "string")],
          Json.obj [("type", Json.str "any")]].enum)
          = [(0, Json.obj [("type", Json.str "string")]),
             (1, Json.obj [("type", Json.str "any")])] := rfl
      rw [he] at hp
      rcases List.mem_cons.mp hp with rfl | hp
      · rfl
      rcases List.mem_cons.mp hp with rfl | hp
      · rfl
      · exact absurd hp (List.not_mem_nil _))

/-- An absent key looks up to nothing. -/
theorem lookup_none_of_not_has {kvs : List (String × Json)} {k : String}
    (h : kvsHas kvs k = false) : kvs.lookup k = none := by
  induction kvs with
  | nil => rfl
  | cons q rest ih =>
    simp only [kvsHas, List.any_cons, Bool.or_eq_false_iff] at h
    rw [show q = (q.1, q.2) from rfl,
      lookup_cons_ne (fun hk => by rw [hk] at h; simp at h)]
    exact ih (by simp [kvsHas, h.2])

/-- `in` distributes over list append. -/
theorem kvsHas_append (a b : List (String × Json)) (k : String) :
    kvsHas (a ++ b) k = (kvsHas a k || kvsHas b k) := by
  simp [kvsHas]

/-- Lookup in an append finds the left part when the key is there. -/
theorem lookup_append_left {a : List (String × Json)} {k : String}
    (b : List (String × Json)) (h : kvsHas a k = true) :
    (a ++ b).lookup k = a.lookup k := by
  induction a with
  | nil => simp [kvsHas] at h
  | cons q rest ih =>
    by_cases hk : k = q.1
    · rw [List.cons_append, show q = (q.1, q.2) from rfl, ← hk, lookup_cons_self,
        lookup_cons_self]
    · simp only [kvsHas, List.any_cons, Bool.or_eq_true] at h
      rcases h with h | h
      · have hqk : q.1 = k := by simpa using h
        exact absurd hqk.symm hk
      · rw [List.cons_append, show q = (q.1, q.2) from rfl, lookup_cons_ne hk,
          lookup_cons_ne hk]
        exact ih h

/-- Lookup in an append skips the left part when the key is absent there. -/
theorem lookup_append_right {a : List (String × Json)} {k : String}
    (b : List (String × Json)) (h : kvsHas a k = false) :
    (a ++ b).lookup k = b.lookup k := by
  induction a with
  | nil => rfl
  | cons q rest ih =>
    simp only [kvsHas, List.any_cons, Bool.or_eq_false_iff] at h
    rw [List.cons_append, show q = (q.1, q.2) from rfl,
      lookup_cons_ne (fun hk => by rw [hk] at h; simp at h)]
    exact ih (by simp [kvsHas, h.2])

/-- Setting a fresh key appends it. -/
theorem kvsSet_fresh {kvs : List (String × Json)} {k : String} (v : Json)
    (h : kvsHas kvs k = false) : kvsSet kvs k v = kvs ++ [(k, v)] := by
  induction kvs with
  | nil => rfl
  | cons q rest ih =>
    simp only [kvsHas, List.any_cons, Bool.or_eq_false_iff] at h
    rw [show q = (q.1, q.2) from rfl, kvsSet, if_neg (by simp [h.1]), List.cons_append]
    rw [ih (by simp [kvsHas, h.2])]

/-- Updating with entirely fresh unique keys appends them in order. -/
theorem kvsUpdate_fresh (D : List (String × Json)) :
    ∀ acc : List (String × Json), (D.map Prod.fst).Nodup →
      (∀ p ∈ D, kvsHas acc p.1 = false) → kvsUpdate acc D = acc ++ D := by
  induction D with
  | nil => intro acc _ _; simp [kvsUpdate]
  | cons p rest ih =>
    intro acc hnd h
    rw [List.map_cons, List.nodup_cons] at hnd
    show kvsUpdate (kvsSet acc p.1 p.2) rest = acc ++ p :: rest
    rw [kvsSet_fresh p.2 (h p (List.mem_cons_self _ _))]
    rw [ih (acc ++ [(p.1, p.2)]) hnd.2 ?fresh]
    · simp
    case fresh =>
      intro q hq
      rw [kvsHas_append, Bool.or_eq_false_iff]
      refine ⟨h q (List.mem_cons_of_mem _ hq), ?_⟩
      have hne : p.1 ≠ q.1 := by
        intro he
        exact hnd.1 (he ▸ List.mem_map_of_mem Prod.fst hq)
      simp [kvsHas, hne]

/-- The non-clobbering merge loop (`if k not in obj: obj[k] = v`) appends
exactly the entries whose keys are fresh, in order. -/
theorem mergeFold_eq (defs : List (String × Json)) :
    ∀ kvs : List (String × Json), (defs.map Prod.fst).Nodup →
      defs.foldl (fun acc (p : String × Json) => if kvsHas acc p.1 then acc else acc ++ [p]) kvs
        = kvs ++ defs.filter (fun p => !kvsHas kvs p.1) := by
  induction defs with
  | nil => intro kvs _; simp
  | cons p rest ih =>
    intro kvs hnd
    rw [List.map_cons, List.nodup_cons] at hnd
    rw [List.foldl_cons, List.filter_cons]
    cases hhas : kvsHas kvs p.1 with
    | true =>
      rw [if_pos rfl]
      simp only [Bool.not_true, Bool.false_eq_true, ite_false]
      exact ih kvs hnd.2
    | false =>
      rw [if_neg (by simp)]
      simp only [Bool.not_false, ite_true]
      rw [ih (kvs ++ [p]) hnd.2, List.append_assoc, List.singleton_append]
      congr 1
      congr 1
      apply List.filter_congr
      intro q hq
      have hne : p.1 ≠ q.1 := by
        intro he
        exact hnd.1 (he ▸ List.mem_map_of_mem Prod.fst hq)
      rw [kvsHas_append]
      simp [kvsHas, hne]

/-- Deleting a key present in the left part of an append acts on that part. -/
theorem kvsDel_append_left {a : List (String × Json)} {k : String}
    (b : List (String × Json)) (h : kvsHas a k = true) :
    kvsDel (a ++ b) k = kvsDel a k ++ b := by
  induction a with
  | nil => simp [kvsHas] at h
  | cons q rest ih =>
    by_cases hk : q.1 = k
    · rw [List.cons_append, show q = (q.1, q.2) from rfl, kvsDel, kvsDel,
        if_pos (by simp [hk]), if_pos (by simp [hk])]
    · simp only [kvsHas, List.any_cons, Bool.or_eq_true] at h
      rcases h with h | h
      · exact absurd (by simpa using h) hk
      · rw [List.cons_append, show q = (q.1, q.2) from rfl, kvsDel, kvsDel,
          if_neg (by simp [hk]), if_neg (by simp [hk]), List.cons_append, ih h]

/-- After deleting a key from a unique-key map, the key is gone. -/
theorem kvsDel_not_has {kvs : List (String × Json)} {k : String}
    (hnd : (kvs.map Prod.fst).Nodup) : kvsHas (kvsDel kvs k) k = false := by
  induction kvs with
  | nil => rfl
  | cons q rest ih =>
    rw [List.map_cons, List.nodup_cons] at hnd
    rw [show q = (q.1, q.2) from rfl, kvsDel]
    by_cases hk : q.1 = k
    · rw [if_pos (by simp [hk])]
      subst hk
      rw [kvsHas, List.any_eq_false]
      intro p hp
      have : p.1 ≠ q.1 := by
        intro he
        exact hnd.1 (he ▸ List.mem_map_of_mem Prod.fst hp)
      simp [this]
    · rw [if_neg (by simp [hk]), kvsHas, List.any_cons]
      simp only [Bool.or_eq_false_iff]
      exact ⟨by simp [hk], ih hnd.2⟩

/-- Deleting one key leaves lookups of other keys unchanged. -/
theorem kvsDel_lookup_ne {kvs : List (String × Json)} {k k' : String}
    (h : k' ≠ k) : (kvsDel kvs k).lookup k' = kvs.lookup k' := by
  induction kvs with
  | nil => rfl
  | cons q rest ih =>
    rw [show q = (q.1, q.2) from rfl, kvsDel]
    by_cases hk : q.1 = k
    · rw [if_pos (by simp [hk]), lookup_cons_ne (by rw [hk]; exact h)]
    · rw [if_neg (by simp [hk])]
      by_cases hk' : k' = q.1
      · simp [List.lookup, hk']
      · rw [lookup_cons_ne hk', lookup_cons_ne hk']
        exact ih

/-- Deletion never introduces a key. -/
theorem kvsHas_kvsDel_false {kvs : List (String × Json)} {k key : String}
    (h : kvsHas kvs k = false) : kvsHas (kvsDel kvs key) k = false := by
  induction kvs with
  | nil => rfl
  | cons q rest ih =>
    simp only [kvsHas, List.any_cons, Bool.or_eq_false_iff] at h
    rw [show q = (q.1, q.2) from rfl, kvsDel]
    by_cases hk : q.1 = key
    · rw [if_pos (by simp [hk])]
      simp [kvsHas, h.2]
    · rw [if_neg (by simp [hk]), kvsHas, List.any_cons, Bool.or_eq_false_iff]
      exact ⟨h.1, ih (by simp [kvsHas, h.2])⟩

/-- A filtered map has no entry of a key all of whose entries fail the
filter. -/
theorem kvsHas_filter_false {l : List (String × Json)} {pred : String × Json → Bool}
    {key : String} (h : ∀ p ∈ l, p.1 = key → pred p = false) :
    kvsHas (l.filter pred) key = false := by
  rw [kvsHas, List.any_eq_false]
  intro p hp
  rw [List.mem_filter] at hp
  by_cases hk : p.1 = key
  · rw [h p hp.1 hk] at hp
    exact absurd hp.2 (by simp)
  · simp [hk]

/-- The first entry of a key survives a filter that keeps it. -/
theorem lookup_filter {D : List (String × Json)} {pred : String × Json → Bool}
    {k : String} {v : Json} (h : D.lookup k = some v) (hp : pred (k, v) = true) :
    (D.filter pred).lookup k = some v := by
  induction D with
  | nil => simp [List.lookup] at h
  | cons q rest ih =>
    by_cases hk : k = q.1
    · have hv : q.2 = v := by
        rw [show q = (q.1, q.2) from rfl, ← hk, lookup_cons_self] at h
        exact Option.some.inj h
      have hq : q = (k, v) := by rw [show q = (q.1, q.2) from rfl, ← hk, hv]
      rw [List.filter_cons, hq, hp]
      simp only [ite_true]
      exact lookup_cons_self
    · rw [show q = (q.1, q.2) from rfl, lookup_cons_ne hk] at h
      rw [List.filter_cons]
      cases hpq : pred q with
      | true =>
        simp only [ite_true]
        rw [show q = (q.1, q.2) from rfl, lookup_cons_ne hk]
        exact ih h
      | false =>
        simp only [Bool.false_eq_true, ite_false]
        exact ih h

/-- `imported_defs` for `$import` when the fetched document has both `name`
and `type`: the document under its name, updated with its definitions. -/
theorem importedDefs_import {ekvs D : List (String × Json)} {n : String}
    (hName : ekvs.lookup "name" = some (Json.str n))
    (hType : kvsHas ekvs "type" = true)
    (hDefs : ekvs.lookup "definitions" = some (Json.obj D)) :
    importedDefs "$import" (Json.obj ekvs) =
      some (kvsUpdate [(n, Json.obj ekvs)] D) := by
  simp [importedDefs, hType, kvsHas_of_lookup hName, hName, hDefs]

/-- `imported_defs` for `$importdefs`: only the definitions. -/
theorem importedDefs_importdefs {ekvs D : List (String × Json)}
    (hDefs : ekvs.lookup "definitions" = some (Json.obj D)) :
    importedDefs "$importdefs" (Json.obj ekvs) = some D := by
  simp [importedDefs, hDefs]

/-- One import keyword step with the gate open, an absolute URI and a
fetchable document: merge non-clobberingly, then delete the keyword. -/
theorem importStep_run {fetch : String → Option Json} {kvs : List (String × Json)}
    {uri : String} {external : Json} {defs : List (String × Json)}
    (path : String) (errors : List String) (key : String)
    (hkey : (key == "$import" || key == "$importdefs") = true)
    (hK : kvs.lookup key = some (Json.str uri))
    (hUri : isAbsUri uri = true)
    (hFetch : fetch uri = some external)
    (hDefs : importedDefs key external = some defs) :
    importStep fetch true path (errors, kvs) key =
      some (errors, kvsDel (defs.foldl
        (fun acc (p : String × Json) => if kvsHas acc p.1 then acc else acc ++ [p]) kvs) key) := by
  simp [importStep, hkey, hK, hUri, hFetch, hDefs]

/-- C9: during import expansion, for an object carrying an import keyword
whose value is an absolute URI and whose fetched document has both `name` and
`type` (and a unique-key `definitions` map not redefining that name), the
keyword step fetches the document, inlines it under `fetched.name` (for
`$import` only), merges the `definitions` non-clobberingly — every key already
present keeps its original value — and removes the keyword afterwards
(lines 616–647 of `_process_imports`). -/
theorem c9_import_merge (fetch : String → Option Json) (path : String)
    (errors : List String) (kvs ekvs D : List (String × Json)) (uri n key : String)
    (hkey : key = "$import" ∨ key = "$importdefs")
    (hK : kvs.lookup key = some (Json.str uri))
    (hKn : (kvs.map Prod.fst).Nodup)
    (hUri : isAbsUri uri = true)
    (hFetch : fetch uri = some (Json.obj ekvs))
    (hName : ekvs.lookup "name" = some (Json.str n))
    (hType : kvsHas ekvs "type" = true)
    (hDefs : ekvs.lookup "definitions" = some (Json.obj D))
    (hDn : (D.map Prod.fst).Nodup)
    (hnD : kvsHas D n = false)
    (hn : n ≠ key) :
    ∃ final : List (String × Json),
      importStep fetch true path (errors, kvs) key = some (errors, final) ∧
      final.lookup key = none ∧
      (∀ k, k ≠ key → kvsHas kvs k = true → final.lookup k = kvs.lookup k) ∧
      (key = "$import" → kvsHas kvs n = false → final.lookup n = some (Json.obj ekvs)) ∧
      (∀ k v, k ≠ key → k ≠ n → kvsHas kvs k = false → D.lookup k = some v →
        final.lookup k = some v) := by
  have hKhas : kvsHas kvs key = true := kvsHas_of_lookup hK
  have hDne : ∀ p ∈ D, p.1 ≠ n := by
    intro p hp he
    rw [kvsHas, List.any_eq_false] at hnD
    have := hnD p hp
    rw [he] at this
    simp at this
  rcases hkey with rfl | rfl
  · have hupd : kvsUpdate [(n, Json.obj ekvs)] D = (n, Json.obj ekvs) :: D := by
      rw [kvsUpdate_fresh D [(n, Json.obj ekvs)] hDn ?fresh]
      · rfl
      case fresh =>
        intro p hp
        simp [kvsHas, Ne.symm (hDne p hp)]
    have hnodup : (((n, Json.obj ekvs) :: D).map Prod.fst).Nodup := by
      rw [List.map_cons, List.nodup_cons]
      refine ⟨?_, hDn⟩
      intro hmem
      rw [List.mem_map] at hmem
      obtain ⟨p, hp, hpe⟩ := hmem
      exact hDne p hp hpe
    have h1 := importStep_run path errors "$import" (by decide) hK hUri hFetch
      (importedDefs_import hName hType hDefs)
    rw [hupd, mergeFold_eq _ kvs hnodup, kvsDel_append_left _ hKhas] at h1
    refine ⟨_, h1, ?_, ?_, ?_, ?_⟩
    · rw [lookup_append_right _ (kvsDel_not_has hKn)]
      apply lookup_none_of_not_has
      apply kvsHas_filter_false
      intro p hp hpk
      rcases List.mem_cons.mp hp with rfl | hp
      · exact absurd hpk hn
      · simp [hpk, hKhas]
    · intro k hk hhas
      obtain ⟨v, hv⟩ := lookup_of_kvsHas hhas
      have hdel : (kvsDel kvs "$import").lookup k = kvs.lookup k := kvsDel_lookup_ne hk
      rw [lookup_append_left _ (kvsHas_of_lookup (hdel.trans hv)), hdel]
    · intro _ hfresh
      rw [lookup_append_right _ (kvsHas_kvsDel_false hfresh)]
      rw [List.filter_cons]
      simp only [hfresh, Bool.not_false, ite_true]
      exact lookup_cons_self
    · intro k v hk hkn hkfresh hDk
      have hkv : (fun (p : String × Json) => !kvsHas kvs p.1) (k, v) = true := by
        simp [hkfresh]
      rw [lookup_append_right _ (kvsHas_kvsDel_false hkfresh)]
      rw [List.filter_cons]
      simp only []
      cases hph : kvsHas kvs n with
      | true =>
        simp only [hph, Bool.not_true, Bool.false_eq_true, ite_false]
        exact lookup_filter hDk hkv
      | false =>
        simp only [hph, Bool.not_false, ite_true]
        rw [lookup_cons_ne hkn]
        exact lookup_filter hDk hkv
  · have h1 := importStep_run path errors "$importdefs" (by decide) hK hUri hFetch
      (importedDefs_importdefs hDefs)
    rw [mergeFold_eq _ kvs hDn, kvsDel_append_left _ hKhas] at h1
    refine ⟨_, h1, ?_, ?_, ?_, ?_⟩
    · rw [lookup_append_right _ (kvsDel_not_has hKn)]
      apply lookup_none_of_not_has
      apply kvsHas_filter_false
      intro p hp hpk
      simp [hpk, hKhas]
    · intro k hk hhas
      obtain ⟨v, hv⟩ := lookup_of_kvsHas hhas
      have hdel : (kvsDel kvs "$importdefs").lookup k = kvs.lookup k := kvsDel_lookup_ne hk
      rw [lookup_append_left _ (kvsHas_of_lookup (hdel.trans hv)), hdel]
    · intro habs _
      exact absurd habs (by decide)
    · intro k v hk hkn hkfresh hDk
      have hkv : (fun (p : String × Json) => !kvsHas kvs p.1) (k, v) = true := by
        simp [hkfresh]
      rw [lookup_append_right _ (kvsHas_kvsDel_false hkfresh)]
      exact lookup_filter hDk hkv

/-- Concrete run of `c9_import_merge`: the fetched `Person` document is
inlined under `"Person"`, the fresh definition `"Phone"` is merged, the
pre-existing keys `"name"` and `"Address"` keep their original values, and
`"$import"` is removed. -/
theorem c9_import_merge_witness :
    ∃ final : List (String × Json),
      importStep
          (fun u => if u == "https://example.com/people.json"
            then some (Json.obj [("name", Json.str "Person"), ("type", Json.str "object"),
              ("definitions", Json.obj
                [("Address", Json.str "ext"), ("Phone", Json.str "ext2")])])
            else none) true "#"
          ([], [("name", Json.str "Main"),
                ("$import", Json.str "https://example.com/people.json"),
                ("Address", Json.str "keep")]) "$import" =
        some ([], final) ∧
      final.lookup "$import" = none ∧
      (∀ k, k ≠ "$import" →
        kvsHas [("name", Json.str "Main"),
                ("$import", Json.str "https://example.com/people.json"),
                ("Address", Json.str "keep")] k = true →
        final.lookup k =
          List.lookup k [("name", Json.str "Main"),
            ("$import", Json.str "https://example.com/people.json"),
            ("Address", Json.str "keep")]) ∧
      ("$import" = "$import" →
        kvsHas [("name", Json.str "Main"),
                ("$import", Json.str "https://example.com/people.json"),
                ("Address", Json.str "keep")] "Person" = false →
        final.lookup "Person" =
          some (Json.obj [("name", Json.str "Person"), ("type", Json.str "object"),
            ("definitions", Json.obj
              [("Address", Json.str "ext"), ("Phone", Json.str "ext2")])])) ∧
      (∀ k v, k ≠ "$import" → k ≠ "Person" →
        kvsHas [("name", Json.str "Main"),
                ("$import", Json.str "https://example.com/people.json"),
                ("Address", Json.str "keep")] k = false →
        List.lookup k [("Address", Json.str "ext"), ("Phone", Json.str "ext2")] = some v →
        final.lookup k = some v) :=
  c9_import_merge
    (fun u => if u == "https://example.com/people.json"
      then some (Json.obj [("name", Json.str "Person"), ("type", Json.str "object"),
        ("definitions", Json.obj [("Address", Json.str "ext"), ("Phone", Json.str "ext2")])])
      else none)
    "#" []
    [("name", Json.str "Main"),
     ("$import", Json.str "https://example.com/people.json"),
     ("Address", Json.str "keep")]
    [("name", Json.str "Person"), ("type", Json.str "object"),
     ("definitions", Json.obj [("Address", Json.str "ext"), ("Phone", Json.str "ext2")])]
    [("Address", Json.str "ext"), ("Phone", Json.str "ext2")]
    "https://example.com/people.json" "Person" "$import"
    (Or.inl rfl) rfl (by decide) (by decide) rfl rfl rfl rfl (by decide) rfl (by decide)
